import Mathlib

/-!
Verification development for the graham-app brokerage-note extraction engine
(api-python).  The Python parsers (generic.py, br_nota.py, ibkr.py,
inter_global.py, avenue.py) and the pydantic schemas are shallowly embedded
here: strings become `List Char`, floats become `ℚ`, the regular expressions
used by the source are replaced by equivalent hand-rolled scanners, and the
external PDF/CSV decoding step (pdfplumber / csv) is modelled as an input
that either yields the extracted text and table grids or signals a fault
with a message, mirroring the exception behaviour at the adapter boundary.
Python's ASCII-relevant `str.lower` is modelled by `Char.toLower` (ASCII).
-/

namespace Graham

/- The Batteries rational arithmetic definitions are `[irreducible]`, which
blocks `decide` on concrete `ℚ` computations; restore default
reducibility for this development. -/
attribute [local semireducible] Rat.add Rat.sub Rat.mul Rat.inv

/-! ### Basic character and string utilities -/

def lowerStr (s : List Char) : List Char := s.map Char.toLower

def isWordCh (c : Char) : Bool := c.isAlphanum || c = '_'

/-- Python `\s` whitespace class (ASCII part). -/
def isPySpace (c : Char) : Bool :=
  c = ' ' || c = '\t' || c = '\n' || c = '\r' || c = '\x0b' || c = '\x0c'

def isColonSpace (c : Char) : Bool := c = ':' || isPySpace c

/-- `true` when the next character (if any) is not a word character:
the word-boundary test used after a match. -/
def noWordAhead : List Char → Bool
  | [] => true
  | c :: _ => !isWordCh c

/-- Substring test: `containsSub pat s` is Python's `pat in s`. -/
def containsSub (pat : List Char) : List Char → Bool
  | [] => pat.isPrefixOf []
  | s@(_ :: rest) => pat.isPrefixOf s || containsSub pat rest

/-- Python `str.strip()`. -/
def stripStr (s : List Char) : List Char :=
  ((s.dropWhile isPySpace).reverse.dropWhile isPySpace).reverse

/-- Python `str.split()` (split on whitespace runs, no empties). -/
def splitWsAux : List Char → List Char → List (List Char)
  | [], acc => if acc.isEmpty then [] else [acc.reverse]
  | c :: rest, acc =>
      if isPySpace c then
        if acc.isEmpty then splitWsAux rest [] else acc.reverse :: splitWsAux rest []
      else splitWsAux rest (c :: acc)

def splitWs (s : List Char) : List (List Char) := splitWsAux s []

/-- Python `str.split('\n')` (keeps empty pieces). -/
def splitLinesAux : List Char → List Char → List (List Char)
  | [], acc => [acc.reverse]
  | '\n' :: rest, acc => acc.reverse :: splitLinesAux rest []
  | c :: rest, acc => splitLinesAux rest (c :: acc)

def splitLines (s : List Char) : List (List Char) := splitLinesAux s []

/-- The segment after the last occurrence of `c` (the whole string if absent):
Python `s.split(c)[-1]`. -/
def lastSeg (c : Char) (s : List Char) : List Char :=
  (s.reverse.takeWhile (fun a => a ≠ c)).reverse

/-- Python `str.rfind` (−1 when absent). -/
def rfind (c : Char) : List Char → Int
  | [] => -1
  | a :: rest =>
      let r := rfind c rest
      if 0 ≤ r then r + 1 else if a = c then 0 else -1

/-! ### Numeric token parsing (Python `float` on the token grammar that
actually reaches it here: optional sign, digits, at most one dot) -/

def digitVal (c : Char) : ℕ := c.toNat - 48

def natVal (ds : List Char) : ℕ := ds.foldl (fun a c => 10 * a + digitVal c) 0

def parseFloatCore (s : List Char) : Option ℚ :=
  let ip := s.takeWhile Char.isDigit
  let rest := s.dropWhile Char.isDigit
  match rest with
  | [] => if ip.isEmpty then none else some ((natVal ip : ℚ))
  | '.' :: fr =>
      if fr.all Char.isDigit && !(ip.isEmpty && fr.isEmpty) then
        some ((natVal ip : ℚ) + (natVal fr : ℚ) / (10 : ℚ) ^ fr.length)
      else none
  | _ => none

def parseFloat? (s : List Char) : Option ℚ :=
  if s.headD ' ' = '-' then (parseFloatCore s.tail).map (fun q => -q)
  else parseFloatCore s

def commaToDot (s : List Char) : List Char := s.map (fun c => if c = ',' then '.' else c)

def stripDots (s : List Char) : List Char := s.filter (fun c => c ≠ '.')

def dropCommas (s : List Char) : List Char := s.filter (fun c => c ≠ ',')

/-- generic.py lines 72-83: if the last comma comes after the last period the
token is read in Brazilian convention, otherwise in US convention. -/
def genericNormalize (n : List Char) : Option ℚ :=
  if rfind '.' n < rfind ',' n then parseFloat? (commaToDot (stripDots n))
  else parseFloat? (dropCommas n)

/-- br_nota.py line 164 (also rico/text strategies): unconditional Brazilian
normalization `n.replace('.', '').replace(',', '.')` then `float`. -/
def brNotaNormalize (n : List Char) : Option ℚ :=
  parseFloat? (commaToDot (stripDots n))

/-- Python's `round` at 0 decimals is half-to-even. -/
def roundHalfEven (x : ℚ) : ℤ :=
  let f := Rat.floor x
  let r := x - (f : ℚ)
  if r < 1/2 then f else if 1/2 < r then f + 1 else if f % 2 = 0 then f else f + 1

def roundQ2 (x : ℚ) : ℚ := ((roundHalfEven (x * 100) : ℤ) : ℚ) / 100

def maxQ : List ℚ → ℚ
  | [] => 0
  | x :: xs => xs.foldl max x

/-! ### Data model (models/schemas.py) -/

inductive OperationType
  | buy
  | sell
deriving DecidableEq, Repr

inductive AssetType
  | stock_br
  | stock_us
  | reit_br
  | reit_us
  | etf_br
  | etf_us
  | opt
  | future
  | bond
  | other
deriving DecidableEq, Repr

/-- A calendar date as validated by `datetime.strptime`; the response's
string formatting `strftime("%Y-%m-%d")` is not modelled. -/
structure Date where
  y : ℕ
  m : ℕ
  d : ℕ
deriving DecidableEq, Repr

structure Operation where
  ticker : List Char
  name : Option (List Char) := none
  type : OperationType
  asset_type : AssetType := AssetType.other
  quantity : ℚ
  price : ℚ
  total : ℚ
  currency : List Char
  trade_date : Option Date := none
deriving DecidableEq, Repr

structure Fees where
  brokerage : ℚ := 0
  settlement : ℚ := 0
  emoluments : ℚ := 0
  custody : ℚ := 0
  iss : ℚ := 0
  irrf : ℚ := 0
  other : ℚ := 0
  total : ℚ := 0
deriving DecidableEq, Repr

structure ParseResponse where
  success : Bool := true
  broker : Option (List Char) := none
  note_date : Option Date := none
  note_number : Option (List Char) := none
  operations : List Operation := []
  fees : Option Fees := none
  net_value : Option ℚ := none
  currency : List Char := "BRL".toList
  raw_text : Option (List Char) := none
  warnings : List (List Char) := []
deriving DecidableEq, Repr

/-! ### The external document-decoding collaborator.

`pdfplumber.open` plus the page loop either yields pages (text and table
grids) or raises; an exception message is carried so the adapters'
`except` blocks can be modelled faithfully.  `openErr` is a fault of the
open call itself (where br_nota/inter/avenue test for a password signal),
`extractErr` any later fault inside the adapter's outer `try`. -/

def Cell : Type := Option (List Char)

instance : DecidableEq Cell := by unfold Cell; infer_instance

def Row : Type := List Cell

instance : DecidableEq Row := by unfold Row; infer_instance

def Table : Type := List Row

instance : DecidableEq Table := by unfold Table; infer_instance

def Page : Type := List Char × List Table

def PdfDoc : Type := List Page

inductive PdfOutcome
  | openErr (msg : List Char)
  | extractErr (msg : List Char)
  | ok (doc : PdfDoc)

def fullText (doc : PdfDoc) : List Char :=
  (doc.map (fun p => p.1 ++ ['\n'])).flatten

def allTables (doc : PdfDoc) : List Table :=
  (doc.map (fun p => p.2)).flatten

def cellTruthy (c : Cell) : Bool :=
  match c with
  | some s => !s.isEmpty
  | none => false

/-- `" ".join(str(cell) for cell in row if cell)` -/
def joinCells (row : Row) : List Char :=
  List.intercalate (" ".toList)
    (row.filterMap (fun c =>
      match c with
      | some s => if s.isEmpty then none else some s
      | none => none))

def joinSpace (parts : List (List Char)) : List Char :=
  List.intercalate (" ".toList) parts

/-! ### Regex scanners.

Each scanner implements exactly one of the regular expressions used by the
source, with Python `re` leftmost-match and greedy/backtracking semantics
worked out for that particular pattern.  Scanners that restart after a
match use a fuel argument (the string length) so that recursion stays
structural. -/

/-- Match of `([A-Z]{4,6})(\d{1,2})F?\b` at the head of `s`, trying a fixed
letter count `k`; greedy digit count 2 then 1, greedy optional `F`. -/
def brTickerEnd : List Char → Option (List Char)
  | 'F' :: tail => if noWordAhead tail then some ['F'] else none
  | rest => if noWordAhead rest then some [] else none

def brTickerDigits (rest : List Char) : ℕ → Option (List Char)
  | 0 => none
  | d + 1 =>
      let ds := rest.take (d + 1)
      if ds.length = d + 1 && ds.all Char.isDigit then
        match brTickerEnd (rest.drop (d + 1)) with
        | some f => some (ds ++ f)
        | none => brTickerDigits rest d
      else brTickerDigits rest d

def brTickerAtK (s : List Char) (k : ℕ) : Option (List Char) :=
  let ls := s.take k
  if ls.length = k && ls.all Char.isUpper then
    match brTickerDigits (s.drop k) 2 with
    | some dsf => some (ls ++ dsf)
    | none => none
  else none

def brTickerAt (s : List Char) : Option (List Char) :=
  match brTickerAtK s 6 with
  | some m => some m
  | none =>
      match brTickerAtK s 5 with
      | some m => some m
      | none => brTickerAtK s 4

/-- First match of `BR_TICKER_PATTERN = \b([A-Z]{4,6})(\d{1,2})F?\b`
(`match.group(0)`), tracking the word-boundary via the previous character. -/
def brTickerSearchAux : Bool → List Char → Option (List Char)
  | _, [] => none
  | prevWord, s@(c :: rest) =>
      if !prevWord then
        match brTickerAt s with
        | some m => some m
        | none => brTickerSearchAux (isWordCh c) rest
      else brTickerSearchAux (isWordCh c) rest

def brTickerSearch (s : List Char) : Option (List Char) := brTickerSearchAux false s

/-- Match of `([A-Z]{1,5})\b` at the head: with both boundaries required the
only candidate is the maximal uppercase run of length 1..5. -/
def usTickerAt (s : List Char) : Option (List Char) :=
  let u := s.takeWhile Char.isUpper
  if 1 ≤ u.length && u.length ≤ 5 && noWordAhead (s.drop u.length) then some u else none

/-- First match of `\b([A-Z]{1,5})\b`. -/
def usTickerSearchAux : Bool → List Char → Option (List Char)
  | _, [] => none
  | prevWord, s@(c :: rest) =>
      if !prevWord then
        match usTickerAt s with
        | some m => some m
        | none => usTickerSearchAux (isWordCh c) rest
      else usTickerSearchAux (isWordCh c) rest

def usTickerSearch (s : List Char) : Option (List Char) := usTickerSearchAux false s

def isNumClassCh (c : Char) : Bool := c.isDigit || c = '.' || c = ','

/-- `re.findall(r'-?[\d.,]+', s)` (generic.py line 67). -/
def findallSignedNums : ℕ → List Char → List (List Char)
  | 0, _ => []
  | _, [] => []
  | fuel + 1, s@(c :: rest) =>
      if isNumClassCh c then
        let run := s.takeWhile isNumClassCh
        run :: findallSignedNums fuel (s.drop run.length)
      else if c = '-' then
        match rest.takeWhile isNumClassCh with
        | [] => findallSignedNums fuel rest
        | run => ('-' :: run) :: findallSignedNums fuel (rest.drop run.length)
      else findallSignedNums fuel rest

/-- `re.findall(r'[\d.,]+', s)` (br_nota.py line 163). -/
def findallPlainNums : ℕ → List Char → List (List Char)
  | 0, _ => []
  | _, [] => []
  | fuel + 1, s@(c :: rest) =>
      if isNumClassCh c then
        let run := s.takeWhile isNumClassCh
        run :: findallPlainNums fuel (s.drop run.length)
      else findallPlainNums fuel rest

def isDigitDot (c : Char) : Bool := c.isDigit || c = '.'

/-- After the maximal `[\d.]` run, does `,\d{2}` follow?  (Only the maximal
run can precede the comma since `,` is outside the class.) -/
def brTextAlt1Ok : List Char → Bool
  | ',' :: d1 :: d2 :: _ => d1.isDigit && d2.isDigit
  | _ => false

/-- `re.findall(r'[\d.]+,\d{2}|\d+', s)` (br_nota.py line 348). -/
def findallBrText : ℕ → List Char → List (List Char)
  | 0, _ => []
  | _, [] => []
  | fuel + 1, s@(c :: rest) =>
      if isDigitDot c then
        let run := s.takeWhile isDigitDot
        let after := s.drop run.length
        if brTextAlt1Ok after then
          (run ++ after.take 3) :: findallBrText fuel (s.drop (run.length + 3))
        else
          let ds := s.takeWhile Char.isDigit
          if ds.isEmpty then findallBrText fuel rest
          else ds :: findallBrText fuel (s.drop ds.length)
      else findallBrText fuel rest

/-- `re.findall(r'[\d.]+,\d{2}|\b\d+\b', s)` (br_nota.py line 268); the
second alternative needs word boundaries on both sides. -/
def findallRico : ℕ → Bool → List Char → List (List Char)
  | 0, _, _ => []
  | _, _, [] => []
  | fuel + 1, prevWord, s@(c :: rest) =>
      if isDigitDot c then
        let run := s.takeWhile isDigitDot
        let after := s.drop run.length
        if brTextAlt1Ok after then
          (run ++ after.take 3) :: findallRico fuel true (s.drop (run.length + 3))
        else
          let ds := s.takeWhile Char.isDigit
          if !prevWord && !ds.isEmpty && noWordAhead (s.drop ds.length) then
            ds :: findallRico fuel true (s.drop ds.length)
          else findallRico fuel (isWordCh c) rest
      else findallRico fuel (isWordCh c) rest

/-- `re.search(r'\bV\b', line)` (br_nota.py line 247). -/
def hasStandaloneV : Bool → List Char → Bool
  | _, [] => false
  | prevWord, 'V' :: rest => (!prevWord && noWordAhead rest) || hasStandaloneV true rest
  | _, c :: rest => hasStandaloneV (isWordCh c) rest

/-- `re.findall(r'\d+\.?\d*', s)` (inter_global.py line 150, avenue.py
line 126). -/
def findallUsNums : ℕ → List Char → List (List Char)
  | 0, _ => []
  | _, [] => []
  | fuel + 1, s@(c :: rest) =>
      if c.isDigit then
        let ds := s.takeWhile Char.isDigit
        match s.drop ds.length with
        | '.' :: r2 =>
            let ds2 := r2.takeWhile Char.isDigit
            (ds ++ '.' :: ds2) :: findallUsNums fuel (r2.drop ds2.length)
        | _ => ds :: findallUsNums fuel (s.drop ds.length)
      else findallUsNums fuel rest

/-- Search for `LABEL[:\s]*([\d.,]+)` and return the group; at an occurrence
of the label with no following number the scan continues one position on,
as the regex engine does. -/
def searchLabelNum (lbl : List Char) : List Char → Option (List Char)
  | [] => none
  | s@(_ :: rest) =>
      if lbl.isPrefixOf s then
        let r2 := (s.drop lbl.length).dropWhile isColonSpace
        let num := r2.takeWhile isNumClassCh
        if num.isEmpty then searchLabelNum lbl rest else some num
      else searchLabelNum lbl rest

/-- Search for `LABEL[:\s]*(\d+)` and return the digit group. -/
def searchLabelDigits (lbl : List Char) : List Char → Option (List Char)
  | [] => none
  | s@(_ :: rest) =>
      if lbl.isPrefixOf s then
        let r2 := (s.drop lbl.length).dropWhile isColonSpace
        let ds := r2.takeWhile Char.isDigit
        if ds.isEmpty then searchLabelDigits lbl rest else some ds
      else searchLabelDigits lbl rest

/-- `re.search(r'nr\.\s*nota[:\s]*(\d+)', s)` (br_nota.py line 130). -/
def searchNrNota : List Char → Option (List Char)
  | [] => none
  | s@(_ :: rest) =>
      if ("nr.".toList).isPrefixOf s then
        let r1 := (s.drop 3).dropWhile isPySpace
        if ("nota".toList).isPrefixOf r1 then
          let r2 := (r1.drop 4).dropWhile isColonSpace
          let ds := r2.takeWhile Char.isDigit
          if ds.isEmpty then searchNrNota rest else some ds
        else searchNrNota rest
      else searchNrNota rest

/-- `re.search(r'total\s+commission[:\s]*([\d.,]+)', s)` (ibkr.py line 210). -/
def searchTotalCommission : List Char → Option (List Char)
  | [] => none
  | s@(_ :: rest) =>
      if ("total".toList).isPrefixOf s then
        let r1 := s.drop 5
        let sp := r1.takeWhile isPySpace
        if sp.isEmpty then searchTotalCommission rest
        else
          let r2 := r1.drop sp.length
          if ("commission".toList).isPrefixOf r2 then
            let r3 := (r2.drop 10).dropWhile isColonSpace
            let num := r3.takeWhile isNumClassCh
            if num.isEmpty then searchTotalCommission rest else some num
          else searchTotalCommission rest
      else searchTotalCommission rest

/-- Shape `\d{2}/\d{2}/\d{4}` at the head of a string; returns the 10
matched characters. -/
def dmySlashShape : List Char → Option (List Char)
  | d1 :: d2 :: '/' :: m1 :: m2 :: '/' :: y1 :: y2 :: y3 :: y4 :: _ =>
      if d1.isDigit && d2.isDigit && m1.isDigit && m2.isDigit &&
         y1.isDigit && y2.isDigit && y3.isDigit && y4.isDigit then
        some [d1, d2, '/', m1, m2, '/', y1, y2, y3, y4]
      else none
  | _ => none

/-- Shape `\d{4}-\d{2}-\d{2}` at the head. -/
def ymdDashShape : List Char → Option (List Char)
  | y1 :: y2 :: y3 :: y4 :: '-' :: m1 :: m2 :: '-' :: d1 :: d2 :: _ =>
      if y1.isDigit && y2.isDigit && y3.isDigit && y4.isDigit &&
         m1.isDigit && m2.isDigit && d1.isDigit && d2.isDigit then
        some [y1, y2, y3, y4, '-', m1, m2, '-', d1, d2]
      else none
  | _ => none

/-- `re.search(r'(\d{2}/\d{2}/\d{4})', s)`. -/
def searchDmySlash : List Char → Option (List Char)
  | [] => none
  | s@(_ :: rest) =>
      match dmySlashShape s with
      | some g => some g
      | none => searchDmySlash rest

/-- `re.search(r'(\d{4}-\d{2}-\d{2})', s)`. -/
def searchYmdDash : List Char → Option (List Char)
  | [] => none
  | s@(_ :: rest) =>
      match ymdDashShape s with
      | some g => some g
      | none => searchYmdDash rest

/-- `re.search(LABEL + r'[:\s]*(\d{2}/\d{2}/\d{4})', s)`. -/
def searchLabelDate (lbl : List Char) : List Char → Option (List Char)
  | [] => none
  | s@(_ :: rest) =>
      if lbl.isPrefixOf s then
        match dmySlashShape ((s.drop lbl.length).dropWhile isColonSpace) with
        | some g => some g
        | none => searchLabelDate lbl rest
      else searchLabelDate lbl rest

/-- Match `\d{1,2}/\d{1,2}/\d{4}` at the head, returning the matched
characters (a digit run of length ≥ 3 before a slash can never match). -/
def mdyAt (s : List Char) : Option (List Char) :=
  let a := s.takeWhile Char.isDigit
  if a.isEmpty || 2 < a.length then none
  else
    match s.drop a.length with
    | '/' :: r2 =>
        let b := r2.takeWhile Char.isDigit
        if b.isEmpty || 2 < b.length then none
        else
          match r2.drop b.length with
          | '/' :: r3 =>
              let y := r3.take 4
              if y.length = 4 && y.all Char.isDigit then
                some (a ++ '/' :: b ++ '/' :: y)
              else none
          | _ => none
    | _ => none

/-- Prefix test `re.match(r'\d{1,2}/\d{1,2}/\d{4}', part)`. -/
def mdyPre (part : List Char) : Bool := (mdyAt part).isSome

/-- Prefix test `re.match(r'\d{1,2}/\d{1,2}/\d{2,4}', part)` (avenue.py
line 77): like `mdyPre` but the year part needs only 2 digits. -/
def mdyPre2to4 (part : List Char) : Bool :=
  let a := part.takeWhile Char.isDigit
  if a.isEmpty || 2 < a.length then false
  else
    match part.drop a.length with
    | '/' :: r2 =>
        let b := r2.takeWhile Char.isDigit
        if b.isEmpty || 2 < b.length then false
        else
          match r2.drop b.length with
          | '/' :: r3 => 2 ≤ (r3.takeWhile Char.isDigit).length
          | _ => false
    | _ => false

/-- `re.findall(r'\d{1,2}/\d{1,2}/\d{4}', s)` (inter_global.py line 154). -/
def findallMdy : ℕ → List Char → List (List Char)
  | 0, _ => []
  | _, [] => []
  | fuel + 1, s@(_ :: rest) =>
      match mdyAt s with
      | some tok => tok :: findallMdy fuel (s.drop tok.length)
      | none => findallMdy fuel rest

/-- Full-string test `re.match(r'^\d+\.?\d*$', part)` (inter_global.py
line 88). -/
def fullNumMatch (part : List Char) : Bool :=
  let ds := part.takeWhile Char.isDigit
  if ds.isEmpty then false
  else
    match part.drop ds.length with
    | [] => true
    | '.' :: r => r.all Char.isDigit
    | _ => false

/-- Full-string test `re.match(r'^\d+\.\d+$', part)` (avenue.py line 105). -/
def fullDecMatch (part : List Char) : Bool :=
  let ds := part.takeWhile Char.isDigit
  if ds.isEmpty then false
  else
    match part.drop ds.length with
    | '.' :: r => !r.isEmpty && r.all Char.isDigit
    | _ => false

/-- Full-string test `re.match(r'^[A-Z]{1,5}$', part)`. -/
def fullSymMatch (part : List Char) : Bool :=
  1 ≤ part.length && part.length ≤ 5 && part.all Char.isUpper

/-- Prefix match `re.match(r'^([A-Z]{2,5})\b', row_text)` (inter_global.py
line 143): the anchored maximal uppercase run of length 2..5 followed by a
non-word character. -/
def rowStartSymbol (s : List Char) : Option (List Char) :=
  let u := s.takeWhile Char.isUpper
  if 2 ≤ u.length && u.length ≤ 5 && noWordAhead (s.drop u.length) then some u else none

/-! ### `datetime.strptime` for the formats used by the parsers -/

def isLeap (y : ℕ) : Bool := y % 4 = 0 && (y % 100 ≠ 0 || y % 400 = 0)

def daysInMonth (y m : ℕ) : ℕ :=
  if m = 2 then (if isLeap y then 29 else 28)
  else if m = 4 || m = 6 || m = 9 || m = 11 then 30
  else 31

/-- `datetime(y, m, d)` validity. -/
def mkDate? (y m d : ℕ) : Option Date :=
  if 1 ≤ y && y ≤ 9999 && 1 ≤ m && m ≤ 12 && 1 ≤ d && d ≤ daysInMonth y m then
    some ⟨y, m, d⟩
  else none

/-- `%d/%m/%Y` on a string already of shape `\d{2}/\d{2}/\d{4}`. -/
def strptimeDMY : List Char → Option Date
  | [d1, d2, '/', m1, m2, '/', y1, y2, y3, y4] =>
      mkDate? (natVal [y1, y2, y3, y4]) (natVal [m1, m2]) (natVal [d1, d2])
  | _ => none

/-- `%Y-%m-%d` on a string already of shape `\d{4}-\d{2}-\d{2}`. -/
def strptimeYMD : List Char → Option Date
  | [y1, y2, y3, y4, '-', m1, m2, '-', d1, d2] =>
      mkDate? (natVal [y1, y2, y3, y4]) (natVal [m1, m2]) (natVal [d1, d2])
  | _ => none

/-- A one-or-two digit field delimited by a non-digit: the whole digit run,
which must have length 1..2 and value in `[lo, hi]`. -/
def parseSeg2 (s : List Char) (lo hi : ℕ) : Option (ℕ × List Char) :=
  let ds := s.takeWhile Char.isDigit
  if 1 ≤ ds.length && ds.length ≤ 2 && lo ≤ natVal ds && natVal ds ≤ hi then
    some (natVal ds, s.drop ds.length)
  else none

/-- A `%Y` field: exactly four digits. -/
def parseY4 (s : List Char) : Option (ℕ × List Char) :=
  let ds := s.take 4
  if ds.length = 4 && ds.all Char.isDigit then some (natVal ds, s.drop 4) else none

/-- `%m/%d/%Y` over the whole string. -/
def strptimeMDY4 (s : List Char) : Option Date :=
  match parseSeg2 s 1 12 with
  | some (m, '/' :: r2) =>
      match parseSeg2 r2 1 31 with
      | some (d, '/' :: r3) =>
          match parseY4 r3 with
          | some (y, []) => mkDate? y m d
          | _ => none
      | _ => none
  | _ => none

/-- `%m/%d/%y` over the whole string (`%y` is exactly two digits;
00–68 map to 2000s, 69–99 to 1900s). -/
def strptimeMDY2 (s : List Char) : Option Date :=
  match parseSeg2 s 1 12 with
  | some (m, '/' :: r2) =>
      match parseSeg2 r2 1 31 with
      | some (d, '/' :: r3) =>
          let ys := r3.takeWhile Char.isDigit
          if ys.length = 2 && (r3.drop 2).isEmpty then
            let yv := natVal ys
            mkDate? (if yv ≤ 68 then 2000 + yv else 1900 + yv) m d
          else none
      | _ => none
  | _ => none

/-- `%H:%M:%S` consuming the rest of the string. -/
def parseHMS (s : List Char) : Bool :=
  match parseSeg2 s 0 23 with
  | some (_, ':' :: r1) =>
      match parseSeg2 r1 0 59 with
      | some (_, ':' :: r2) =>
          match parseSeg2 r2 0 59 with
          | some (_, rest) => rest.isEmpty
          | none => false
      | _ => false
  | _ => false

/-- `%Y-%m-%d %H:%M:%S` over the whole string. -/
def strptimeYmdHMS (s : List Char) : Option Date :=
  match parseY4 s with
  | some (y, '-' :: r1) =>
      match parseSeg2 r1 1 12 with
      | some (m, '-' :: r2) =>
          match parseSeg2 r2 1 31 with
          | some (d, ' ' :: r3) => if parseHMS r3 then mkDate? y m d else none
          | _ => none
      | _ => none
  | _ => none

/-- `%Y-%m-%d, %H:%M:%S` over the whole string (never succeeds on the
comma-free strings that actually reach it in ibkr.py, but modelled). -/
def strptimeYmdCommaHMS (s : List Char) : Option Date :=
  match parseY4 s with
  | some (y, '-' :: r1) =>
      match parseSeg2 r1 1 12 with
      | some (m, '-' :: r2) =>
          match parseSeg2 r2 1 31 with
          | some (d, ',' :: ' ' :: r3) => if parseHMS r3 then mkDate? y m d else none
          | _ => none
      | _ => none
  | _ => none

/-- `%Y%m%d` over the whole string, with the regex backtracking order of
CPython's strptime: month tries its two-digit alternatives first, then one
digit; likewise the day; the first combination consuming the whole string
is then calendar-checked. -/
def strptimeYmd8 (s : List Char) : Option Date :=
  match parseY4 s with
  | some (y, rest) =>
      if !rest.all Char.isDigit then none
      else
        if rest.length = 4 then
          let m := natVal (rest.take 2)
          let d := natVal (rest.drop 2)
          if 1 ≤ m && m ≤ 12 && 1 ≤ d && d ≤ 31 then mkDate? y m d else none
        else if rest.length = 3 then
          let m2 := natVal (rest.take 2)
          let d1 := natVal (rest.drop 2)
          if 1 ≤ m2 && m2 ≤ 12 && 1 ≤ d1 then mkDate? y m2 d1
          else
            let m1 := natVal (rest.take 1)
            let d2 := natVal (rest.drop 1)
            if 1 ≤ m1 && m1 ≤ 9 && 1 ≤ d2 && d2 ≤ 31 then mkDate? y m1 d2 else none
        else if rest.length = 2 then
          let m1 := natVal (rest.take 1)
          let d1 := natVal (rest.drop 1)
          if 1 ≤ m1 && m1 ≤ 9 && 1 ≤ d1 then mkDate? y m1 d1 else none
        else none
  | _ => none

/-! ### generic.py -/

/-- `TICKER_BLACKLIST` (generic.py lines 24-30). -/
def tickerBlacklist : List (List Char) :=
  ["USD".toList, "BRL".toList, "EUR".toList, "GBP".toList, "CAD".toList,
   "AUD".toList, "JPY".toList,
   "BUY".toList, "SELL".toList, "DATE".toList, "TIME".toList, "TOTAL".toList,
   "QTD".toList, "QTDE".toList,
   "NOTA".toList, "CORR".toList, "TAXA".toList, "VALOR".toList,
   "PRECO".toList, "TIPO".toList,
   "STOCK".toList, "BOND".toList, "ETF".toList, "REIT".toList,
   "PRICE".toList, "AMOUNT".toList,
   "THE".toList, "AND".toList, "FOR".toList, "NOT".toList, "ARE".toList,
   "BUT".toList, "WAS".toList]

/-- The ticker loop of generic.py lines 54-61: the first match of each
pattern in order, accepted only when not blacklisted; a blacklisted first
match falls through to the next pattern (not to later matches). -/
def genericFindTicker (rowText : List Char) : Option (List Char) :=
  match brTickerSearch rowText with
  | some m =>
      if tickerBlacklist.contains m then
        match usTickerSearch rowText with
        | some m2 => if tickerBlacklist.contains m2 then none else some m2
        | none => none
      else some m
  | none =>
      match usTickerSearch rowText with
      | some m2 => if tickerBlacklist.contains m2 then none else some m2
      | none => none

/-- generic.py lines 112-117. -/
def genericAssetType (ticker : List Char) : AssetType :=
  if (match ticker with
      | [a, b, c, d, e, f] =>
          a.isUpper && b.isUpper && c.isUpper && d.isUpper && e = '1' && f = '1'
      | _ => false) then AssetType.reit_br
  else if (let u := ticker.takeWhile Char.isUpper
           4 ≤ u.length && u.length ≤ 6 && u.length < ticker.length &&
             (ticker.getD u.length ' ').isDigit) then AssetType.stock_br
  else if ticker.length ≤ 5 then AssetType.stock_us
  else AssetType.other

/-- The quantity/price/total role assignment and consistency validation of
generic.py lines 101-108, on the parsed number list (length ≥ 2). -/
def genericRoleAssign (p0 p1 : ℚ) (rest : List ℚ) : ℚ × ℚ × ℚ :=
  let quantity := if p0 < 10000 then p0 else 1
  let price := p1
  let total := if rest.length > 0 then (p0 :: p1 :: rest).getLastD 0 else quantity * price
  let total2 := if 0 < total ∧ (1 : ℚ)/10 < |total - quantity * price| / total then
      quantity * price
    else total
  (quantity, price, total2)

/-- One row of generic.py's table loop (lines 47-127); `Except` carries the
pydantic `ValidationError` raised when `abs(quantity) = 0` violates
`quantity > 0` (the message text is abstracted). -/
def validationErrMsg : List Char :=
  "validation error: quantity must be greater than 0".toList

def genericRowOp (row : Row) : Except (List Char) (Option Operation) :=
  if row.isEmpty || !(row.any cellTruthy) then Except.ok none
  else
    let rowText := joinCells row
    match genericFindTicker rowText with
    | none => Except.ok none
    | some ticker =>
        let toks := findallSignedNums rowText.length rowText
        let parsed := toks.filterMap genericNormalize
        match parsed with
        | p0 :: p1 :: rest =>
            let rl := lowerStr rowText
            let opType := if containsSub ("venda".toList) rl ||
                containsSub (" v ".toList) rl || containsSub ("sell".toList) rl then
                OperationType.sell
              else OperationType.buy
            let qpt := genericRoleAssign p0 p1 rest
            if |qpt.1| = 0 then Except.error validationErrMsg
            else
              Except.ok (some
                { ticker := ticker, type := opType,
                  asset_type := genericAssetType ticker,
                  quantity := |qpt.1|, price := |qpt.2.1|, total := |qpt.2.2|,
                  currency := "BRL".toList })
        | _ => Except.ok none

def genericTableOps (rows : List Row) : Except (List Char) (List Operation) :=
  match rows with
  | [] => Except.ok []
  | r :: rest =>
      match genericRowOp r with
      | Except.error e => Except.error e
      | Except.ok none => genericTableOps rest
      | Except.ok (some op) =>
          match genericTableOps rest with
          | Except.error e => Except.error e
          | Except.ok ops => Except.ok (op :: ops)

/-- generic.py `extract_operations_from_tables` (tables with fewer than two
rows are skipped). -/
def extract_operations_from_tables (tables : List Table) : Except (List Char) (List Operation) :=
  match tables with
  | [] => Except.ok []
  | t :: rest =>
      if t.isEmpty || t.length < 2 then extract_operations_from_tables rest
      else
        match genericTableOps t with
        | Except.error e => Except.error e
        | Except.ok ops =>
            match extract_operations_from_tables rest with
            | Except.error e => Except.error e
            | Except.ok ops2 => Except.ok (ops ++ ops2)

/-- generic.py lines 173-188: date scan with the two patterns and the two
formats tried per match. -/
def genericExtractDate (full : List Char) : Option Date :=
  match searchDmySlash full with
  | some g =>
      (match strptimeDMY g with
       | some d => some d
       | none =>
           match searchYmdDash full with
           | some g2 => strptimeYMD g2
           | none => none)
  | none =>
      match searchYmdDash full with
      | some g2 => strptimeYMD g2
      | none => none

def genericBaseWarn : List Char := "Using generic parser - results may be incomplete".toList

def genericNoOpsWarn : List Char :=
  "No operations could be extracted. Please check the PDF format.".toList

/-- generic.py `parse`. -/
def genericParse (inp : PdfOutcome) : ParseResponse :=
  match inp with
  | PdfOutcome.openErr m =>
      { success := false, warnings := [("Generic parse error: ".toList) ++ m] }
  | PdfOutcome.extractErr m =>
      { success := false, warnings := [("Generic parse error: ".toList) ++ m] }
  | PdfOutcome.ok doc =>
      let full := fullText doc
      let tables := allTables doc
      let lw := lowerStr full
      let currency := if (containsSub ("usd".toList) lw || full.contains '$') &&
          !containsSub ("r$".toList) lw then "USD".toList else "BRL".toList
      match extract_operations_from_tables tables with
      | Except.error e =>
          { success := false, warnings := [("Generic parse error: ".toList) ++ e] }
      | Except.ok ops0 =>
          let ops := ops0.map (fun o => { o with currency := currency })
          let warns := genericBaseWarn ::
            (if ops.isEmpty then [genericNoOpsWarn] else [])
          let nd := genericExtractDate full
          { success := !ops.isEmpty, broker := none, note_date := nd,
            note_number := none, operations := ops, fees := some {},
            net_value := some ((ops.map Operation.total).sum),
            currency := currency,
            raw_text := if ops.isEmpty then some (full.take 1000) else none,
            warnings := warns }

/-! ### br_nota.py -/

/-- `BROKER_PATTERNS` (ordered, as Python dicts preserve insertion order). -/
def brokerPatterns : List (List Char × List (List Char)) :=
  [("Clear".toList,
     ["clear corretora".toList, "clear s.a".toList, "clear ctvm".toList, "clear -".toList]),
   ("XP".toList,
     ["xp investimentos".toList, "xp cctvm".toList, "xp s.a.".toList, "xp s/a".toList]),
   ("Rico".toList,
     ["rico investimentos".toList, "rico ctvm".toList, "rico s.a".toList, "rico -".toList,
      "rico s/a".toList, "riconnect".toList, "rico corretora".toList]),
   ("BTG Pactual".toList, ["btg pactual".toList, "btg ctvm".toList]),
   ("Nuinvest".toList, ["nuinvest".toList, "easynvest".toList]),
   ("Inter".toList,
     ["inter dtvm".toList, "banco inter".toList, "inter invest".toList,
      "inter s.a".toList, "intermedium".toList]),
   ("Genial".toList, ["genial investimentos".toList]),
   ("Modal".toList, ["modal dtvm".toList]),
   ("Ágora".toList, ["agora ctvm".toList, "ágora".toList])]

def identify_broker (text : List Char) : Option (List Char) :=
  let tl := lowerStr text
  (brokerPatterns.find? (fun bp => bp.2.any (fun p => containsSub p tl))).map Prod.fst

def brEtfs : List (List Char) :=
  ["BOVA11".toList, "IVVB11".toList, "SMAL11".toList, "HASH11".toList,
   "DIVO11".toList, "BOVB11".toList, "ECOO11".toList]

/-- `FII_PATTERN = ^[A-Z]{4}11$` as a full match. -/
def fiiMatch : List Char → Bool
  | [a, b, c, d, e, f] =>
      a.isUpper && b.isUpper && c.isUpper && d.isUpper && e = '1' && f = '1'
  | _ => false

def br_identify_asset_type (ticker : List Char) : AssetType :=
  if brEtfs.contains ticker then AssetType.etf_br
  else if fiiMatch ticker then AssetType.reit_br
  else AssetType.stock_br

/-- `STOCK_NAME_TO_TICKER` as an ordered association list. -/
def stockNameToTicker : List (List Char × List Char) :=
  [("cemig".toList, "CMIG4".toList), ("taesa".toList, "TAEE11".toList),
   ("eletrobras".toList, "ELET3".toList), ("copel".toList, "CPLE6".toList),
   ("engie".toList, "EGIE3".toList), ("energisa".toList, "ENGI11".toList),
   ("equatorial".toList, "EQTL3".toList), ("cpfl".toList, "CPFE3".toList),
   ("itau".toList, "ITUB4".toList), ("itausa".toList, "ITSA4".toList),
   ("bradesco".toList, "BBDC4".toList), ("banco do brasil".toList, "BBAS3".toList),
   ("santander".toList, "SANB11".toList), ("btg".toList, "BPAC11".toList),
   ("petrobras".toList, "PETR4".toList), ("vale".toList, "VALE3".toList),
   ("gerdau".toList, "GGBR4".toList), ("csn".toList, "CSNA3".toList),
   ("usiminas".toList, "USIM5".toList), ("suzano".toList, "SUZB3".toList),
   ("klabin".toList, "KLBN11".toList), ("ambev".toList, "ABEV3".toList),
   ("magazine luiza".toList, "MGLU3".toList), ("lojas renner".toList, "LREN3".toList),
   ("natura".toList, "NTCO3".toList), ("weg".toList, "WEGE3".toList),
   ("localiza".toList, "RENT3".toList), ("b3".toList, "B3SA3".toList),
   ("bb seguridade".toList, "BBSE3".toList), ("jbs".toList, "JBSS3".toList),
   ("brf".toList, "BRFS3".toList), ("totvs".toList, "TOTS3".toList),
   ("raia drogasil".toList, "RADL3".toList), ("hapvida".toList, "HAPV3".toList)]

def name_to_ticker (name : List Char) : Option (List Char) :=
  (stockNameToTicker.find? (fun p => containsSub p.1 (lowerStr name))).map Prod.snd

/-- The raw operation dicts produced by the br_nota strategies. -/
structure RawOp where
  ticker : List Char
  type : OperationType
  quantity : ℚ
  price : ℚ
  total : ℚ
deriving DecidableEq, Repr

/-- The list comprehension of br_nota.py line 175:
`[float(n) for n in numbers if float(n) > 0]` raises (skipping the whole
row) when any token fails to parse, and otherwise keeps the positive
values. -/
def brParseAllPos (tokens : List (List Char)) : Option (List ℚ) :=
  tokens.foldr
    (fun t acc =>
      match acc, brNotaNormalize t with
      | some l, some v => some (if 0 < v then v :: l else l)
      | _, _ => none)
    (some [])

/-- Quantity search of br_nota.py lines 184-188: Python's
`n == int(n) or (n < 1000 and n == round(n, 0))` holds for positive floats
exactly when `n` is integral. -/
def brQuantityPick (l : List ℚ) : Option ℚ :=
  l.find? (fun n => n.den = 1 || (n < 1000 && n.den = 1))

/-- One row of `parse_operations_from_table` (br_nota.py lines 150-212). -/
def brTableRowOp (row : Row) : Option RawOp :=
  if row.isEmpty || !(row.any cellTruthy) then none
  else
    let rowText := joinCells row
    match brTickerSearch rowText with
    | none => none
    | some ticker =>
        let toks := findallPlainNums rowText.length rowText
        let rl := lowerStr rowText
        let opType := if containsSub (" v ".toList) rl || containsSub ("venda".toList) rl then
            OperationType.sell
          else OperationType.buy
        if toks.length < 2 then none
        else
          match brParseAllPos toks with
          | none => none
          | some floats =>
              if floats.length < 2 then none
              else
                let sortedN := List.insertionSort (fun a b : ℚ => a ≤ b) floats
                let quantity := match brQuantityPick floats with
                  | some q => q
                  | none => sortedN.headD 0
                let total := sortedN.getLastD 0
                let price := if 0 < quantity then total / quantity else 0
                if 1/100 ≤ price && price ≤ 100000 then
                  some { ticker := ticker, type := opType, quantity := quantity,
                         price := roundQ2 price, total := total }
                else none

def parse_operations_from_table (tables : List Table) : List RawOp :=
  tables.foldr
    (fun t acc => if t.isEmpty then acc else t.filterMap brTableRowOp ++ acc) []

/-- One line of `parse_rico_format` (br_nota.py lines 238-302). -/
def ricoLine (line : List Char) : Option RawOp :=
  let ll := lowerStr line
  if !(containsSub ("bovespa".toList) ll || containsSub ("fracionario".toList) ll) then none
  else
    let opType := if hasStandaloneV false line then OperationType.sell else OperationType.buy
    let ticker? : Option (List Char) := match brTickerSearch line with
      | some t => some t
      | none => (stockNameToTicker.find? (fun p => containsSub p.1 ll)).map Prod.snd
    match ticker? with
    | none => none
    | some ticker =>
        let toks := findallRico line.length false line
        let parsed := toks.filterMap (fun (n : List Char) =>
          match (if n.contains ',' then brNotaNormalize n else parseFloat? n) with
          | some v => if 0 < v then some v else none
          | none => none)
        let valid := parsed.filter (fun n => n ≠ 1)
        match valid with
        | q :: p :: t :: _ =>
            if |t - q * p| < 1 then
              some { ticker := ticker, type := opType, quantity := q, price := p, total := t }
            else none
        | _ => none

def parse_rico_format (_tables : List Table) (text : List Char) : List RawOp :=
  (splitLines text).filterMap ricoLine

/-- One line of `parse_operations_from_text` (br_nota.py lines 315-390). -/
def brTextLine (line : List Char) : Option RawOp :=
  if line.length < 10 then none
  else
    match brTickerSearch line with
    | none => none
    | some ticker =>
        let ll := lowerStr line
        let isOp := containsSub (" c ".toList) ll || containsSub (" v ".toList) ll ||
          containsSub ("compra".toList) ll || containsSub ("venda".toList) ll ||
          containsSub ("fracionario".toList) ll || containsSub ("lote".toList) ll
        if !isOp then none
        else
          let opType := if containsSub (" v ".toList) ll || containsSub ("venda".toList) ll then
              OperationType.sell
            else OperationType.buy
          let toks := findallBrText line.length line
          let parsed := toks.filterMap (fun n =>
            match brNotaNormalize n with
            | some v => if 0 < v then some v else none
            | none => none)
          match parsed with
          | q :: restNums =>
              if parsed.length < 2 then none
              else
                let price0 := (restNums.find? (fun num =>
                  1/100 ≤ num && num ≤ 10000 && num ≠ q)).getD 0
                let total0 := maxQ parsed
                if 0 < q && (0 < price0 || 0 < total0) then
                  let price1 := if price0 = 0 ∧ 0 < total0 then
                      (if 0 < q then total0 / q else 0)
                    else price0
                  let total1 := if total0 = 0 then q * price1 else total0
                  some { ticker := ticker, type := opType, quantity := q,
                         price := price1, total := total1 }
                else none
          | [] => none

def parse_operations_from_text (text : List Char) : List RawOp :=
  (splitLines text).filterMap brTextLine

/-- `extract_fees` helper: the first pattern of a category whose matched
group also parses wins (a parse failure falls through to the next
pattern). -/
def feeValue (labels : List (List Char)) (lowText : List Char) : ℚ :=
  match labels with
  | [] => 0
  | l :: ls =>
      match searchLabelNum l lowText with
      | some num =>
          match brNotaNormalize num with
          | some v => v
          | none => feeValue ls lowText
      | none => feeValue ls lowText

/-- br_nota.py `extract_fees` (lines 395-423): category values from the
first matching label variant, `total` recomputed as the sum of the fields
(custody and other are never populated). -/
def extract_fees (text : List Char) : Fees :=
  let low := lowerStr text
  let b := feeValue ["corretagem".toList, "taxa de corretagem".toList] low
  let s := feeValue ["liquidação".toList, "taxa de liquidação".toList] low
  let e := feeValue ["emolumentos".toList] low
  let i := feeValue ["iss".toList] low
  let r := feeValue ["irrf".toList, "i.r.r.f.".toList] low
  { brokerage := b, settlement := s, emoluments := e, custody := 0,
    iss := i, irrf := r, other := 0,
    total := b + s + e + 0 + i + r + 0 }

/-- Pattern 3 of br_nota.py `extract_date`. -/
def extractDateP3 (low : List Char) : Option Date :=
  match searchDmySlash low with
  | some g => strptimeDMY g
  | none => none

/-- Patterns 2 then 3 of `extract_date`. -/
def extractDateP2 (low : List Char) : Option Date :=
  match searchLabelDate ("data do pregão".toList) low with
  | some g =>
      (match strptimeDMY g with
       | some d => some d
       | none => extractDateP3 low)
  | none => extractDateP3 low

/-- br_nota.py `extract_date` (lines 108-124): a match whose date is
invalid falls through to the next pattern. -/
def extract_date (text : List Char) : Option Date :=
  let low := lowerStr text
  match searchLabelDate ("data pregão".toList) low with
  | some g =>
      (match strptimeDMY g with
       | some d => some d
       | none => extractDateP2 low)
  | none => extractDateP2 low

/-- br_nota.py `extract_note_number` (lines 127-139). -/
def extract_note_number (text : List Char) : Option (List Char) :=
  let low := lowerStr text
  match searchNrNota low with
  | some ds => some ds
  | none =>
      match searchLabelDigits ("nota".toList) low with
      | some ds => some ds
      | none => searchLabelDigits ("número".toList) low

/-- The rico-guard of br_nota.py line 483. -/
def ricoGuard (text : List Char) : Bool :=
  identify_broker text = some ("Rico".toList) ||
    containsSub ("bovespa".toList) (lowerStr text)

/-- br_nota.py lines 480-488: rico strategy (guarded) with fallback to the
table strategy. -/
def brNotaChainStage2 (text : List Char) (tables : List Table) : List RawOp :=
  let r1 := if ricoGuard text then parse_rico_format tables text else []
  if r1.isEmpty then parse_operations_from_table tables else r1

/-- br_nota.py lines 480-493: the full strategy chain, falling through to
the text strategy when the first two yield nothing. -/
def brNotaChain (text : List Char) (tables : List Table) : List RawOp :=
  let r2 := brNotaChainStage2 text tables
  if r2.isEmpty then parse_operations_from_text text else r2

def brPasswordMsg : List Char :=
  "PDF is password-protected. Please provide your CPF (without dots/dashes) as the password.".toList

/-- The password/encryption test of br_nota.py line 448 (also avenue.py
line 171, inter_global.py line 202). -/
def pwHit (m : List Char) : Bool :=
  containsSub ("password".toList) (lowerStr m) ||
    containsSub ("encrypted".toList) (lowerStr m)

/-- br_nota.py `parse` (lines 426-536).  The `password` argument is only
forwarded to the external open call, whose outcome the `PdfOutcome` input
already carries, so it is not a parameter here. -/
def brNotaParse (inp : PdfOutcome) (debug : Bool) : ParseResponse :=
  match inp with
  | PdfOutcome.openErr m =>
      if pwHit m then { success := false, warnings := [brPasswordMsg] }
      else { success := false, warnings := [("Parse error: ".toList) ++ m] }
  | PdfOutcome.extractErr m =>
      { success := false, warnings := [("Parse error: ".toList) ++ m] }
  | PdfOutcome.ok doc =>
      let full := fullText doc
      let tables := allTables doc
      let broker := identify_broker full
      let w1 := if broker.isNone then [("Could not identify broker".toList)] else []
      let nd := extract_date full
      let w2 := if nd.isNone then [("Could not extract note date".toList)] else []
      let nn := extract_note_number full
      let r2 := brNotaChainStage2 full tables
      let w3 := if r2.isEmpty then
          [("No operations found in tables, trying text parsing...".toList)]
        else []
      let r3 := if r2.isEmpty then parse_operations_from_text full else r2
      let w4 := if r3.isEmpty then
          [("No operations found. The PDF format may not be supported.".toList)]
        else []
      let ops := r3.map (fun op =>
        ({ ticker := op.ticker, type := op.type,
           asset_type := br_identify_asset_type op.ticker,
           quantity := op.quantity, price := op.price, total := op.total,
           currency := "BRL".toList, trade_date := nd } : Operation))
      let fees := extract_fees full
      let totalOps := (ops.map Operation.total).sum
      { success := true, broker := broker, note_date := nd, note_number := nn,
        operations := ops, fees := some fees,
        net_value := some (totalOps + fees.total), currency := "BRL".toList,
        raw_text := if debug then some (full.take 2000) else none,
        warnings := w1 ++ w2 ++ w3 ++ w4 }

/-! ### ibkr.py -/

/-- ibkr.py `identify_asset_type_from_category` (lines 17-32). -/
def identify_asset_type_from_category (category ticker : List Char) : AssetType :=
  let cl := lowerStr category
  if containsSub ("etf".toList) cl then AssetType.etf_us
  else if containsSub ("reit".toList) cl then AssetType.reit_us
  else if containsSub ("option".toList) cl || 10 < ticker.length then AssetType.opt
  else if containsSub ("future".toList) cl then AssetType.future
  else if containsSub ("bond".toList) cl || containsSub ("treasury".toList) cl then
    AssetType.bond
  else AssetType.stock_us

/-- `row.get(k, d)` over a CSV row (`csv.DictReader` rows are modelled as
association lists with unique keys). -/
def rowGetD (row : List (List Char × List Char)) (k d : List Char) : List Char :=
  match row.find? (fun p => p.1 = k) with
  | some p => p.2
  | none => d

/-- `row.get(k1, row.get(k2, d))`. -/
def rowGet2 (row : List (List Char × List Char)) (k1 k2 d : List Char) : List Char :=
  match row.find? (fun p => p.1 = k1) with
  | some p => p.2
  | none => rowGetD row k2 d

/-- ibkr.py lines 78-85: the date formats tried on
`date_str.split(',')[0].strip()` (the first two involve a time of day; the
comma variant can never match the comma-free input but is modelled). -/
def ibkrRowDate (ds : List Char) : Option Date :=
  let s := stripStr (ds.takeWhile (fun c => c ≠ ','))
  match strptimeYmdCommaHMS s with
  | some d => some d
  | none =>
      match strptimeYmdHMS s with
      | some d => some d
      | none =>
          match strptimeYmd8 s with
          | some d => some d
          | none => strptimeMDY4 s

/-- What becomes of one CSV row inside the loop of ibkr.py lines 50-103:
an operation plus its fee contribution, or a skip.  A skip with a warning
happens on a float `ValueError` or on the pydantic validation of the
constructed Operation (`quantity > 0`, `price ≥ 0`); in the latter case
the row's fee has already been added to `total_fees`. -/
inductive RowOutcome
  | emitted (op : Operation) (fee : ℚ)
  | skippedFee (fee : ℚ)
  | skippedWarn
  | skippedSilent
deriving DecidableEq, Repr

def ibkrRowErrMsg : List Char := "Error parsing row".toList

def ibkrProcessRow (row : List (List Char × List Char)) : RowOutcome :=
  let ticker := stripStr (rowGetD row ("Symbol".toList) [])
  if ticker.isEmpty then RowOutcome.skippedSilent
  else
    match parseFloat? (dropCommas (rowGetD row ("Quantity".toList) ("0".toList))) with
    | none => RowOutcome.skippedWarn
    | some q =>
        match parseFloat? (dropCommas (rowGet2 row ("T. Price".toList) ("Price".toList) ("0".toList))) with
        | none => RowOutcome.skippedWarn
        | some p =>
            match parseFloat? (dropCommas (rowGet2 row ("Proceeds".toList) ("Amount".toList) ("0".toList))) with
            | none => RowOutcome.skippedWarn
            | some pr =>
                match parseFloat? (dropCommas (rowGet2 row ("Comm/Fee".toList) ("Commission".toList) ("0".toList))) with
                | none => RowOutcome.skippedWarn
                | some f =>
                    let tdate := ibkrRowDate (rowGet2 row ("Date/Time".toList) ("TradeDate".toList) [])
                    let cat := rowGet2 row ("Asset Category".toList) ("AssetClass".toList) []
                    let op : Operation :=
                      { ticker := ticker,
                        type := if 0 < q then OperationType.buy else OperationType.sell,
                        asset_type := identify_asset_type_from_category cat ticker,
                        quantity := |q|, price := p, total := |pr|,
                        currency := "USD".toList, trade_date := tdate }
                    if 0 < |q| ∧ 0 ≤ p then RowOutcome.emitted op |f|
                    else RowOutcome.skippedFee |f|

/-- ibkr.py `parse_csv` (lines 35-122) on the decoded rows; decode/reader
faults land in the outer `except`. -/
def ibkrParseCsv (inp : Except (List Char) (List (List (List Char × List Char)))) :
    ParseResponse :=
  match inp with
  | Except.error m =>
      { success := false, warnings := [("CSV parse error: ".toList) ++ m] }
  | Except.ok rows =>
      let outcomes := rows.map ibkrProcessRow
      let ops := outcomes.filterMap (fun o =>
        match o with
        | RowOutcome.emitted op _ => some op
        | _ => none)
      let totalFees := (outcomes.map (fun o =>
        match o with
        | RowOutcome.emitted _ f => f
        | RowOutcome.skippedFee f => f
        | _ => 0)).sum
      let warns := outcomes.filterMap (fun o =>
        match o with
        | RowOutcome.skippedFee _ => some ibkrRowErrMsg
        | RowOutcome.skippedWarn => some ibkrRowErrMsg
        | _ => none)
      let fees : Fees := { brokerage := totalFees, total := totalFees }
      let tv := (ops.map Operation.total).sum
      { success := true, broker := some ("Interactive Brokers".toList),
        operations := ops, fees := some fees,
        net_value := some (tv + totalFees), currency := "USD".toList,
        warnings := warns }

/-- ibkr.py lines 209-213: the fee extraction of `parse_pdf`; `none` models
the uncaught `ValueError` when the matched group fails `float` (which
aborts the whole parse). -/
def ibkrPdfExtractFees (text : List Char) : Option Fees :=
  match searchTotalCommission (lowerStr text) with
  | none => some {}
  | some numtok =>
      match parseFloat? (dropCommas numtok) with
      | none => none
      | some v => some { brokerage := v, total := v }

/-! ### inter_global.py -/

/-- inter_global.py `identify_asset_type` (lines 17-26). -/
def interIdentifyAssetType (symbol securityName : List Char) : AssetType :=
  let nl := lowerStr securityName
  if containsSub ("etf".toList) nl ||
     ["TLT".toList, "SPY".toList, "QQQ".toList, "IVV".toList, "VTI".toList,
      "VOO".toList].contains symbol then AssetType.etf_us
  else if containsSub ("reit".toList) nl then AssetType.reit_us
  else AssetType.stock_us

structure InterRawOp where
  symbol : List Char
  security : List Char
  type : OperationType
  quantity : ℚ
  price : ℚ
  total : ℚ
  trade_date : Option Date
deriving DecidableEq, Repr

/-- One line of `parse_inter_global_text` (inter_global.py lines 43-113). -/
def interTextLine (line0 : List Char) : Option InterRawOp :=
  let line := stripStr line0
  if line.isEmpty then none
  else
    let ll := lowerStr line
    if !(containsSub ("buy".toList) ll || containsSub ("sell".toList) ll) then none
    else
      let parts := splitWs line
      match parts.findIdx? (fun p => lowerStr p = ("buy".toList) || lowerStr p = ("sell".toList)) with
      | none => none
      | some ai =>
          let symbol := parts.headD []
          let action := lowerStr (parts.getD ai [])
          let opType := if action = ("buy".toList) then OperationType.buy else OperationType.sell
          let security := if 1 < ai then joinSpace ((parts.drop 1).take (ai - 1)) else []
          let post := parts.drop (ai + 1)
          let dates := post.filter mdyPre
          let numbers := (post.filter (fun p => !mdyPre p)).filterMap
            (fun (p : List Char) => if fullNumMatch p then parseFloat? p else none)
          if 2 ≤ numbers.length then
            let q := numbers.getD 0 0
            let p := numbers.getD 1 0
            let td := match dates with
              | d0 :: _ => strptimeMDY4 d0
              | [] => none
            if !symbol.isEmpty && 0 < q then
              some { symbol := symbol, security := security, type := opType,
                     quantity := q, price := p, total := q * p, trade_date := td }
            else none
          else none

def parse_inter_global_text (text : List Char) : List InterRawOp :=
  (splitLines text).filterMap interTextLine

/-- One row of `parse_inter_global_tables` (inter_global.py lines 128-177). -/
def interTableRow (row : Row) : Option InterRawOp :=
  if row.isEmpty || !(row.any cellTruthy) then none
  else
    let rowText := joinCells row
    let rl := lowerStr rowText
    if !(containsSub ("buy".toList) rl || containsSub ("sell".toList) rl) then none
    else
      let opType := if containsSub ("buy".toList) rl then OperationType.buy
        else OperationType.sell
      match rowStartSymbol rowText with
      | none => none
      | some symbol =>
          let nums := (findallUsNums rowText.length rowText).filterMap
            (fun (n : List Char) =>
              match parseFloat? n with
              | some v => if 0 < v then some v else none
              | none => none)
          let dates := findallMdy rowText.length rowText
          if 2 ≤ nums.length then
            let q := nums.getD 0 0
            let p := nums.getD 1 0
            let td := match dates with
              | d0 :: _ => strptimeMDY4 d0
              | [] => none
            some { symbol := symbol, security := [], type := opType,
                   quantity := q, price := p, total := q * p, trade_date := td }
          else none

def parse_inter_global_tables (tables : List Table) (_text : List Char) : List InterRawOp :=
  tables.foldr
    (fun t acc => if t.isEmpty then acc else t.filterMap interTableRow ++ acc) []

/-- inter_global.py lines 244-247: text strategy with fallback to the table
strategy. -/
def interChain (text : List Char) (tables : List Table) : List InterRawOp :=
  let r := parse_inter_global_text text
  if r.isEmpty then parse_inter_global_tables tables text else r

/-- The group of `confirmation date\s*:\s*(\d{1,2}/\d{1,2}/\d{4})` at its
first full match. -/
def searchConfDateTok : List Char → Option (List Char)
  | [] => none
  | s@(_ :: rest) =>
      if ("confirmation date".toList).isPrefixOf s then
        (match (s.drop 17).dropWhile isPySpace with
         | ':' :: r2 =>
             (match mdyAt (r2.dropWhile isPySpace) with
              | some tok => some tok
              | none => searchConfDateTok rest)
         | _ => searchConfDateTok rest)
      else searchConfDateTok rest

def interPasswordMsg : List Char :=
  "PDF is password-protected. Please provide the password.".toList

/-- inter_global.py `parse` (lines 182-286). -/
def interParse (inp : PdfOutcome) (debug : Bool) : ParseResponse :=
  match inp with
  | PdfOutcome.openErr m =>
      if pwHit m then { success := false, warnings := [interPasswordMsg] }
      else { success := false, warnings := [("Parse error: ".toList) ++ m] }
  | PdfOutcome.extractErr m =>
      { success := false, warnings := [("Parse error: ".toList) ++ m] }
  | PdfOutcome.ok doc =>
      let full := fullText doc
      let tables := allTables doc
      let lw := lowerStr full
      let isIG := containsSub ("inter co securities".toList) lw ||
        containsSub ("inter.co".toList) lw ||
        containsSub ("transaction confirmation".toList) lw
      let broker := if isIG then some ("Inter Global".toList) else none
      let w1 := if isIG then []
        else [("Could not confirm this is an Inter Global document".toList)]
      let nd := match searchConfDateTok lw with
        | some g => strptimeMDY4 g
        | none => none
      let w2 := if nd.isNone then [("Could not extract confirmation date".toList)] else []
      let raw := interChain full tables
      let w3 := if raw.isEmpty then [("No transactions found in the document".toList)] else []
      let ops := raw.map (fun op =>
        ({ ticker := op.symbol, name := some op.security, type := op.type,
           asset_type := interIdentifyAssetType op.symbol op.security,
           quantity := op.quantity, price := op.price, total := op.total,
           currency := "USD".toList, trade_date := op.trade_date } : Operation))
      let nv := (ops.map Operation.total).sum
      { success := !ops.isEmpty, broker := broker, note_date := nd,
        operations := ops, fees := some {}, net_value := some nv,
        currency := "USD".toList,
        raw_text := if debug then some (full.take 2000) else none,
        warnings := w1 ++ w2 ++ w3 }

/-! ### avenue.py -/

def usEtfs : List (List Char) :=
  ["SPY".toList, "QQQ".toList, "VTI".toList, "VOO".toList, "IVV".toList,
   "VEA".toList, "VWO".toList, "ARKK".toList, "TLT".toList, "GLD".toList]

/-- avenue.py `identify_asset_type` with the default empty description used
at the call site (line 236). -/
def avenueIdentifyAssetType (symbol : List Char) : AssetType :=
  if usEtfs.contains symbol then AssetType.etf_us else AssetType.stock_us

structure AvRawOp where
  symbol : List Char
  type : OperationType
  quantity : ℚ
  price : ℚ
  total : ℚ
  trade_date : Option Date
deriving DecidableEq, Repr

/-- avenue.py lines 79-85: parse a date part via `%m/%d/%y` when its last
slash segment has two characters, else `%m/%d/%Y`; failures leave the
trade date unset. -/
def avenueParseDate (part : List Char) : Option Date :=
  if (lastSeg '/' part).length = 2 then strptimeMDY2 part else strptimeMDY4 part

/-- avenue.py lines 72-90: scan `remaining` counting date-shaped parts,
recording a date from the first one, and breaking at the first non-date
part that follows at least one date (`data_start` stays 0 when the loop
never breaks). -/
def avenueDateScanAux : List (List Char) → ℕ → ℕ → Option Date → Option Date × ℕ
  | [], _, _, td => (td, 0)
  | p :: rest, i, dateCount, td =>
      if mdyPre2to4 p then
        avenueDateScanAux rest (i + 1) (dateCount + 1)
          (if dateCount = 0 then avenueParseDate p else td)
      else
        if 1 ≤ dateCount then (td, i)
        else avenueDateScanAux rest (i + 1) 0 td

def avenueDateScan (remaining : List (List Char)) : Option Date × ℕ :=
  avenueDateScanAux remaining 0 0 none

/-- avenue.py lines 99-118: the first part matching `^\d+\.\d+$` becomes the
quantity; the part after it becomes the symbol when it matches
`^[A-Z]{1,5}$`, and the part after that is tried as the price. -/
def avenueQSP (dps : List (List Char)) : Option ℚ × Option (List Char) × Option ℚ :=
  match dps.findIdx? fullDecMatch with
  | none => (none, none, none)
  | some i =>
      let q := parseFloat? (dps.getD i [])
      if i + 1 < dps.length && fullSymMatch (dps.getD (i + 1) []) then
        let sym := dps.getD (i + 1) []
        if i + 2 < dps.length then (q, some sym, parseFloat? (dps.getD (i + 2) []))
        else (q, some sym, none)
      else (q, none, none)

/-- avenue.py lines 121-134: the alternative branch, entered only when the
first loop found no symbol; new quantity/price assigned only when at least
two positive numbers appear in the joined parts. -/
def avenueAlt (dps : List (List Char)) : Option (List Char) × Option ℚ × Option ℚ :=
  match dps.find? (fun p => fullSymMatch p && p ≠ ("B".toList) && p ≠ ("S".toList) &&
      p ≠ ("USD".toList)) with
  | none => (none, none, none)
  | some sym =>
      let joined := joinSpace dps
      let nums := (findallUsNums joined.length joined).filterMap
        (fun (n : List Char) =>
          match parseFloat? n with
          | some v => if 0 < v then some v else none
          | none => none)
      if 2 ≤ nums.length then
        let sorted := List.insertionSort (fun a b : ℚ => a ≤ b) nums
        let q := sorted.headD 0
        let p := if 1 < sorted.getD 1 0 then sorted.getD 1 0 else sorted.getLastD 0
        (some sym, some q, some p)
      else (some sym, none, none)

/-- avenue.py lines 137-144: the emitted price is `price if price else 0`
and the emitted total is `quantity * price if price else 0`. -/
def avenuePriceTotal (q : ℚ) (pr : Option ℚ) : ℚ × ℚ :=
  match pr with
  | some p => (p, if p ≠ 0 then q * p else 0)
  | none => (0, 0)

/-- One line of `parse_avenue_text` (avenue.py lines 43-146). -/
def avenueLine (line0 : List Char) : Option AvRawOp :=
  let line := stripStr line0
  if line.isEmpty then none
  else
    let parts := splitWs line
    if parts.length < 7 then none
    else
      match parts.findIdx? (fun p => p = ("B".toList) || p = ("S".toList)) with
      | none => none
      | some ai =>
          let opType := if parts.getD ai [] = ("B".toList) then OperationType.buy
            else OperationType.sell
          let remaining := parts.drop (ai + 1)
          if remaining.length < 5 then none
          else
            let tdds := avenueDateScan remaining
            let dataParts := remaining.drop tdds.2
            if dataParts.length < 3 then none
            else
              let qsp := avenueQSP dataParts
              let combined : Option (List Char) × Option ℚ × Option ℚ :=
                match qsp.2.1 with
                | some s => (some s, qsp.1, qsp.2.2)
                | none =>
                    match avenueAlt dataParts with
                    | (some s, some q, some p) => (some s, some q, some p)
                    | (some s, _, _) => (some s, qsp.1, qsp.2.2)
                    | (none, _, _) => (none, qsp.1, qsp.2.2)
              match combined.1, combined.2.1 with
              | some sym, some q =>
                  if 0 < q then
                    let pt := avenuePriceTotal q combined.2.2
                    some { symbol := sym, type := opType, quantity := q,
                           price := pt.1, total := pt.2, trade_date := tdds.1 }
                  else none
              | _, _ => none

def parse_avenue_text (text : List Char) : List AvRawOp :=
  (splitLines text).filterMap avenueLine

/-- The group of `current trade date[:\s]*(\d{1,2}/\d{1,2}/\d{2,4})` at its
first match (the year group takes greedily up to four digits). -/
def ctdShape (s : List Char) : Option (List Char) :=
  let a := s.takeWhile Char.isDigit
  if a.isEmpty || 2 < a.length then none
  else
    match s.drop a.length with
    | '/' :: r2 =>
        let b := r2.takeWhile Char.isDigit
        if b.isEmpty || 2 < b.length then none
        else
          match r2.drop b.length with
          | '/' :: r3 =>
              let ys := (r3.takeWhile Char.isDigit).take 4
              if 2 ≤ ys.length then some (a ++ '/' :: b ++ '/' :: ys) else none
          | _ => none
    | _ => none

def searchCurrentTradeDate : List Char → Option (List Char)
  | [] => none
  | s@(_ :: rest) =>
      if ("current trade date".toList).isPrefixOf s then
        (match ctdShape ((s.drop 18).dropWhile isColonSpace) with
         | some tok => some tok
         | none => searchCurrentTradeDate rest)
      else searchCurrentTradeDate rest

def searchProcessDate : List Char → Option (List Char)
  | [] => none
  | s@(_ :: rest) =>
      if ("processdate".toList).isPrefixOf s then
        (match mdyAt ((s.drop 11).dropWhile isColonSpace) with
         | some tok => some tok
         | none => searchProcessDate rest)
      else searchProcessDate rest

def avenuePasswordMsg : List Char :=
  "PDF is password-protected. Please provide the password.".toList

/-- The pydantic message raised when a raw avenue operation carries a
negative price (text abstracted). -/
def avenueValidationMsg : List Char :=
  "validation error: price must be greater than or equal to 0".toList

/-- avenue.py lines 231-242: converting raw dicts, aborting (pydantic
`ValidationError`) when a price is negative. -/
def avenueOps : List AvRawOp → Except (List Char) (List Operation)
  | [] => Except.ok []
  | r :: rest =>
      if r.price < 0 then Except.error avenueValidationMsg
      else
        match avenueOps rest with
        | Except.error e => Except.error e
        | Except.ok ops =>
            Except.ok
              (({ ticker := r.symbol, type := r.type,
                  asset_type := avenueIdentifyAssetType r.symbol,
                  quantity := r.quantity, price := r.price, total := r.total,
                  currency := "USD".toList, trade_date := r.trade_date } : Operation) :: ops)

/-- avenue.py `parse` (lines 151-263). -/
def avenueParse (inp : PdfOutcome) (debug : Bool) : ParseResponse :=
  match inp with
  | PdfOutcome.openErr m =>
      if pwHit m then { success := false, warnings := [avenuePasswordMsg] }
      else { success := false, warnings := [("Parse error: ".toList) ++ m] }
  | PdfOutcome.extractErr m =>
      { success := false, warnings := [("Parse error: ".toList) ++ m] }
  | PdfOutcome.ok doc =>
      let full := fullText doc
      let lw := lowerStr full
      let isAvenue := containsSub ("avenue".toList) lw ||
        containsSub ("apex clearing".toList) lw
      let broker := if isAvenue then some ("Avenue".toList) else none
      let w1 := if isAvenue then []
        else [("Could not confirm this is an Avenue document".toList)]
      let nd1 := match searchCurrentTradeDate lw with
        | some tok => avenueParseDate tok
        | none => none
      let nd := match nd1 with
        | some d => some d
        | none =>
            match searchProcessDate lw with
            | some tok => strptimeMDY4 tok
            | none => none
      let w2 := if nd.isNone then [("Could not extract trade date".toList)] else []
      let raws := parse_avenue_text full
      let w3 := if raws.isEmpty then
          [("No transactions found. The PDF format may have changed.".toList)]
        else []
      match avenueOps raws with
      | Except.error e =>
          { success := false, warnings := [("Parse error: ".toList) ++ e] }
      | Except.ok ops =>
          let nv := (ops.map Operation.total).sum
          { success := !ops.isEmpty, broker := broker, note_date := nd,
            operations := ops, fees := some {}, net_value := some nv,
            currency := "USD".toList,
            raw_text := if debug then some (full.take 2000) else none,
            warnings := w1 ++ w2 ++ w3 }

/-! ### Spec-modelled definition for §4.1's decision rule -/

/-- Modelled from the spec: "locate the rightmost `,` and rightmost `.`;
whichever occurs later in the string is treated as the decimal separator,
the other (and any repeats) as thousands separators and stripped".  When at
most one separator kind is present the rightmost-occurrence comparison
degenerates to that separator being the decimal one. -/
def specLaterSeparatorNormalize (n : List Char) : Option ℚ :=
  if rfind '.' n < rfind ',' n then parseFloat? (commaToDot (stripDots n))
  else parseFloat? (dropCommas n)

/-! ### Helper lemmas -/

theorem infix_of_append (pre m : List Char) : m <:+: pre ++ m :=
  (List.suffix_append pre m).isInfix

theorem rfind_ge_neg_one (c : Char) (l : List Char) : -1 ≤ rfind c l := by
  induction l with
  | nil => simp [rfind]
  | cons a rest ih =>
      simp only [rfind]
      split
      · omega
      · split <;> omega

theorem rfind_lt_length (c : Char) (l : List Char) : rfind c l < l.length := by
  induction l with
  | nil => simp [rfind]
  | cons a rest ih =>
      simp only [rfind, List.length_cons]
      split
      · omega
      · split <;> omega

theorem rfind_of_not_mem (c : Char) (l : List Char) (h : c ∉ l) : rfind c l = -1 := by
  induction l with
  | nil => simp [rfind]
  | cons a rest ih =>
      simp only [rfind]
      have ha : a ≠ c := fun hac => h (hac ▸ List.mem_cons_self a rest)
      have hr : rfind c rest = -1 := ih (fun hm => h (List.mem_cons_of_mem a hm))
      rw [hr]
      simp [ha]

theorem rfind_append_not_mem (c : Char) (l1 l2 : List Char) (h : c ∉ l2) :
    rfind c (l1 ++ l2) = rfind c l1 := by
  induction l1 with
  | nil => simp [rfind_of_not_mem c l2 h, rfind]
  | cons a rest ih =>
      simp only [List.cons_append, rfind]
      have ih' : rfind c (rest.append l2) = rfind c rest := ih
      rw [ih']

theorem rfind_append_cons (c : Char) (l1 tail : List Char) (h : c ∉ tail) :
    rfind c (l1 ++ c :: tail) = l1.length := by
  induction l1 with
  | nil =>
      simp only [List.nil_append, rfind, rfind_of_not_mem c tail h, List.length_nil]
      norm_num
  | cons a rest ih =>
      simp only [List.cons_append, rfind, List.length_cons]
      have ih' : rfind c (rest.append (c :: tail)) = (rest.length : ℤ) := ih
      rw [ih']
      have hnn : (0 : ℤ) ≤ (rest.length : ℤ) := by positivity
      rw [if_pos hnn]
      push_cast
      ring

theorem takeWhile_append_stop (p : Char → Bool) (l1 : List Char) (x : Char)
    (l2 : List Char) (h1 : l1.all p = true) (hx : p x = false) :
    (l1 ++ x :: l2).takeWhile p = l1 := by
  induction l1 with
  | nil => simp [List.takeWhile_cons, hx]
  | cons a rest ih =>
      simp only [List.all_cons, Bool.and_eq_true] at h1
      simp [List.takeWhile_cons, h1.1, ih h1.2]

theorem dropWhile_append_stop (p : Char → Bool) (l1 : List Char) (x : Char)
    (l2 : List Char) (h1 : l1.all p = true) (hx : p x = false) :
    (l1 ++ x :: l2).dropWhile p = x :: l2 := by
  induction l1 with
  | nil => simp [List.dropWhile_cons, hx]
  | cons a rest ih =>
      simp only [List.all_cons, Bool.and_eq_true] at h1
      simp [List.dropWhile_cons, h1.1, ih h1.2]

theorem parseFloatCore_digits_dot (ds1 ds2 : List Char)
    (h1 : ds1.all Char.isDigit = true) (h2 : ds2.all Char.isDigit = true)
    (hne : ds2 ≠ []) :
    parseFloatCore (ds1 ++ '.' :: ds2) =
      some ((natVal ds1 : ℚ) + (natVal ds2 : ℚ) / (10 : ℚ) ^ ds2.length) := by
  have hdot : Char.isDigit '.' = false := by decide
  unfold parseFloatCore
  rw [takeWhile_append_stop Char.isDigit ds1 '.' ds2 h1 hdot,
      dropWhile_append_stop Char.isDigit ds1 '.' ds2 h1 hdot]
  simp [h2, List.isEmpty_iff, hne]

theorem parseFloat?_no_sign (s : List Char) (h : s.headD ' ' ≠ '-') :
    parseFloat? s = parseFloatCore s := by
  unfold parseFloat?
  rw [if_neg h]

theorem commaToDot_no_comma (ds : List Char) (h : ∀ c ∈ ds, c ≠ ',') :
    commaToDot ds = ds := by
  induction ds with
  | nil => rfl
  | cons a rest ih =>
      simp only [commaToDot, List.map_cons]
      have ha : a ≠ ',' := h a (List.mem_cons_self a rest)
      rw [if_neg ha]
      have := ih (fun c hc => h c (List.mem_cons_of_mem a hc))
      simp only [commaToDot] at this
      rw [this]

/-! ### C1 -/

/-- C1: every modelled fault at the adapter boundary (a decoding fault for
the generic adapter's open call, an extraction fault for each of the four
PDF adapters and the CSV decode fault for IBKR) is converted into a
returned result with `success = false` whose warnings contain the fault's
description; the adapters are total functions, so a result is always
returned and no exception escapes. -/
theorem c1_adapter_boundary_faults (m : List Char) (d : Bool) :
    ((genericParse (PdfOutcome.openErr m)).success = false ∧
      ∃ w ∈ (genericParse (PdfOutcome.openErr m)).warnings, m <:+: w) ∧
    ((genericParse (PdfOutcome.extractErr m)).success = false ∧
      ∃ w ∈ (genericParse (PdfOutcome.extractErr m)).warnings, m <:+: w) ∧
    ((brNotaParse (PdfOutcome.extractErr m) d).success = false ∧
      ∃ w ∈ (brNotaParse (PdfOutcome.extractErr m) d).warnings, m <:+: w) ∧
    ((interParse (PdfOutcome.extractErr m) d).success = false ∧
      ∃ w ∈ (interParse (PdfOutcome.extractErr m) d).warnings, m <:+: w) ∧
    ((avenueParse (PdfOutcome.extractErr m) d).success = false ∧
      ∃ w ∈ (avenueParse (PdfOutcome.extractErr m) d).warnings, m <:+: w) ∧
    ((ibkrParseCsv (Except.error m)).success = false ∧
      ∃ w ∈ (ibkrParseCsv (Except.error m)).warnings, m <:+: w) := by
  refine ⟨⟨rfl, ?_⟩, ⟨rfl, ?_⟩, ⟨rfl, ?_⟩, ⟨rfl, ?_⟩, ⟨rfl, ?_⟩, ⟨rfl, ?_⟩⟩ <;>
    exact ⟨_, List.mem_singleton.mpr rfl, infix_of_append _ m⟩

/-! ### C2 -/

/-- C2 counterexample: on a document whose text is `"hello"` (no broker
signature, no operations from any strategy) the Brazilian-note adapter
still returns `success = true` with zero operations and no identified
broker. -/
theorem c2_success_counterexample :
    (brNotaParse (PdfOutcome.ok [("hello".toList, [])]) false).success = true ∧
    (brNotaParse (PdfOutcome.ok [("hello".toList, [])]) false).operations = [] ∧
    (brNotaParse (PdfOutcome.ok [("hello".toList, [])]) false).broker = none := by
  refine ⟨rfl, by decide, by decide⟩

/-- C2 amended: the generic adapter's `success` is true exactly when at
least one Operation was produced (on every input, including internal-fault
paths, where `success` is false and the operation list empty); the
Brazilian-note adapter instead returns `success = true` on every
non-faulting parse (see the counterexample). -/
theorem c2_success_amended (doc : PdfDoc) :
    (genericParse (PdfOutcome.ok doc)).success = true ↔
      (genericParse (PdfOutcome.ok doc)).operations ≠ [] := by
  cases h : extract_operations_from_tables (allTables doc) with
  | error e => simp [genericParse, h]
  | ok ops0 =>
      cases ops0 with
      | nil => simp [genericParse, h]
      | cons a l => simp [genericParse, h]

/-! ### C3 -/

/-- C3: in the Brazilian-note adapter the strategies run in declared
priority order (rico when guarded, then the table strategy, then the text
strategy) and the chain stops at the first strategy yielding at least one
candidate — the result is exactly that strategy's list, never a merge; the
Inter Global chain (text strategy, then tables) behaves the same way. -/
theorem c3_chain_short_circuit (text : List Char) (tables : List Table) :
    (ricoGuard text = true → parse_rico_format tables text ≠ [] →
      brNotaChain text tables = parse_rico_format tables text) ∧
    ((ricoGuard text = false ∨ parse_rico_format tables text = []) →
      parse_operations_from_table tables ≠ [] →
      brNotaChain text tables = parse_operations_from_table tables) ∧
    ((ricoGuard text = false ∨ parse_rico_format tables text = []) →
      parse_operations_from_table tables = [] →
      brNotaChain text tables = parse_operations_from_text text) ∧
    (parse_inter_global_text text ≠ [] →
      interChain text tables = parse_inter_global_text text) ∧
    (parse_inter_global_text text = [] →
      interChain text tables = parse_inter_global_tables tables text) := by
  refine ⟨?_, ?_, ?_, ?_, ?_⟩
  · intro hg hr
    unfold brNotaChain brNotaChainStage2
    rw [hg]
    simp [List.isEmpty_iff, hr]
  · intro hg ht
    unfold brNotaChain brNotaChainStage2
    have hr1 : (if ricoGuard text = true then parse_rico_format tables text else []) = [] := by
      rcases hg with hg | hg
      · rw [hg]; simp
      · split <;> simp [hg]
    simp only [hr1]
    simp [List.isEmpty_iff, ht]
  · intro hg ht
    unfold brNotaChain brNotaChainStage2
    have hr1 : (if ricoGuard text = true then parse_rico_format tables text else []) = [] := by
      rcases hg with hg | hg
      · rw [hg]; simp
      · split <;> simp [hg]
    simp only [hr1]
    simp [List.isEmpty_iff, ht]
  · intro hi
    unfold interChain
    simp [List.isEmpty_iff, hi]
  · intro hi
    unfold interChain
    simp [List.isEmpty_iff, hi]

def c3WitnessText : List Char := "1-BOVESPA C CEMIG PN 10 11,30 113,00 D".toList

/-- Witness for C3: a concrete text on which the guarded rico strategy
fires with one candidate, and the chain result is exactly the rico list. -/
theorem c3_chain_short_circuit_witness :
    ricoGuard c3WitnessText = true ∧ parse_rico_format [] c3WitnessText ≠ [] ∧
    brNotaChain c3WitnessText [] = parse_rico_format [] c3WitnessText :=
  ⟨by decide, by decide,
    (c3_chain_short_circuit c3WitnessText []).1 (by decide) (by decide)⟩

/-! ### C4 -/

theorem digit_ne (c x : Char) (hx : x.isDigit = false) (h : c.isDigit = true) :
    c ≠ x := by
  intro he
  rw [he] at h
  rw [h] at hx
  exact Bool.noConfusion hx

theorem mem_filter_digit (x : Char) (gs : List Char)
    (hgs : gs.all (fun c => c.isDigit || c = x) = true) :
    ∀ c ∈ gs.filter (fun c => c ≠ x), c.isDigit = true := by
  intro c hc
  rw [List.mem_filter] at hc
  have h1 := List.all_eq_true.mp hgs c hc.1
  have h2 : c ≠ x := by simpa using hc.2
  simp only [Bool.or_eq_true, decide_eq_true_eq] at h1
  rcases h1 with h1 | h1
  · exact h1
  · exact absurd h1 h2

theorem brazilToken_value (gs : List Char) (d1 d2 : Char)
    (hgs : gs.all (fun c => c.isDigit || c = '.') = true)
    (h1 : d1.isDigit = true) (h2 : d2.isDigit = true) :
    parseFloat? (commaToDot (stripDots (gs ++ ',' :: [d1, d2]))) =
      some ((natVal (gs.filter (fun c => c ≠ '.')) : ℚ) +
        (natVal [d1, d2] : ℚ) / 100) := by
  have hd1 : d1 ≠ '.' := digit_ne d1 '.' (by decide) h1
  have hd2 : d2 ≠ '.' := digit_ne d2 '.' (by decide) h2
  have hd1c : d1 ≠ ',' := digit_ne d1 ',' (by decide) h1
  have hd2c : d2 ≠ ',' := digit_ne d2 ',' (by decide) h2
  have hmem := mem_filter_digit '.' gs hgs
  have hstrip : stripDots (gs ++ ',' :: [d1, d2]) =
      gs.filter (fun c => c ≠ '.') ++ ',' :: [d1, d2] := by
    unfold stripDots
    rw [List.filter_append]
    congr 1
    simp [hd1, hd2]
  have hmap : commaToDot (gs.filter (fun c => c ≠ '.') ++ ',' :: [d1, d2]) =
      gs.filter (fun c => c ≠ '.') ++ '.' :: [d1, d2] := by
    unfold commaToDot
    rw [List.map_append]
    congr 1
    · have hnc : ∀ c ∈ gs.filter (fun c => c ≠ '.'), c ≠ ',' := fun c hc =>
        digit_ne c ',' (by decide) (hmem c hc)
      exact commaToDot_no_comma (gs.filter (fun c => c ≠ '.')) hnc
    · simp [List.map_cons, hd1c, hd2c]
  rw [hstrip, hmap]
  have hall : (gs.filter (fun c => c ≠ '.')).all Char.isDigit = true :=
    List.all_eq_true.mpr hmem
  have hhead : ((gs.filter (fun c => c ≠ '.')) ++ '.' :: [d1, d2]).headD ' ' ≠ '-' := by
    cases hds : gs.filter (fun c => c ≠ '.') with
    | nil => simp only [hds, List.nil_append, List.headD_cons]; decide
    | cons c t =>
        have hc : c.isDigit = true := hmem c (by rw [hds]; exact List.mem_cons_self c t)
        simp only [hds, List.cons_append, List.headD_cons]
        exact digit_ne c '-' (by decide) hc
  rw [parseFloat?_no_sign _ hhead]
  rw [parseFloatCore_digits_dot _ _ hall (by simp [h1, h2]) (by simp)]
  norm_num

theorem usToken_value (gs : List Char) (d1 d2 : Char)
    (hgs : gs.all (fun c => c.isDigit || c = ',') = true)
    (h1 : d1.isDigit = true) (h2 : d2.isDigit = true) :
    parseFloat? (dropCommas (gs ++ '.' :: [d1, d2])) =
      some ((natVal (gs.filter (fun c => c ≠ ',')) : ℚ) +
        (natVal [d1, d2] : ℚ) / 100) := by
  have hd1 : d1 ≠ ',' := digit_ne d1 ',' (by decide) h1
  have hd2 : d2 ≠ ',' := digit_ne d2 ',' (by decide) h2
  have hmem := mem_filter_digit ',' gs hgs
  have hdrop : dropCommas (gs ++ '.' :: [d1, d2]) =
      gs.filter (fun c => c ≠ ',') ++ '.' :: [d1, d2] := by
    unfold dropCommas
    rw [List.filter_append]
    congr 1
    simp [hd1, hd2]
  rw [hdrop]
  have hall : (gs.filter (fun c => c ≠ ',')).all Char.isDigit = true :=
    List.all_eq_true.mpr hmem
  have hhead : ((gs.filter (fun c => c ≠ ',')) ++ '.' :: [d1, d2]).headD ' ' ≠ '-' := by
    cases hds : gs.filter (fun c => c ≠ ',') with
    | nil => simp only [hds, List.nil_append, List.headD_cons]; decide
    | cons c t =>
        have hc : c.isDigit = true := hmem c (by rw [hds]; exact List.mem_cons_self c t)
        simp only [hds, List.cons_append, List.headD_cons]
        exact digit_ne c '-' (by decide) hc
  rw [parseFloat?_no_sign _ hhead]
  rw [parseFloatCore_digits_dot _ _ hall (by simp [h1, h2]) (by simp)]
  norm_num

def c4Token : List Char := "1,234.56".toList

/-- C4 counterexample: in the token `"1,234.56"` both separators occur and
the period is the later one, so the claim's decision rule (and the generic
normalizer) reads it as 1234.56; the Brazilian-note strategies' normalizer
(br_nota.py line 164) instead strips the periods first and reads 1.23456,
more than 1e-6 away. -/
theorem c4_later_separator_counterexample :
    (0 : ℤ) ≤ rfind ',' c4Token ∧ rfind ',' c4Token < rfind '.' c4Token ∧
    specLaterSeparatorNormalize c4Token = some (30864/25) ∧
    brNotaNormalize c4Token = some (3858/3125) ∧
    (3858/3125 : ℚ) ≠ 30864/25 ∧
    ¬(|(3858/3125 : ℚ) - 30864/25| ≤ 1/1000000) := by
  refine ⟨by decide, by decide, by decide, by decide, by decide, by decide⟩

/-- C4 amended: the generic strategy's normalizer implements the
later-separator decision rule and the single-separator locale defaults, so
every Brazilian-convention token (digit-and-period groups, comma, two
decimal digits) and every US-convention token (digit-and-comma groups,
period, two decimal digits) normalizes to exactly the value it denotes;
the Brazilian-note strategies' normalizer applies the Brazilian reading
unconditionally, which agrees on Brazilian-convention tokens (first
conjunct) but misreads US both-separator tokens (see the
counterexample). -/
theorem c4_normalizer_amended :
    (∀ gs d1 d2, gs.all (fun c => c.isDigit || c = '.') = true →
      d1.isDigit = true → d2.isDigit = true →
      genericNormalize (gs ++ ',' :: [d1, d2]) =
        some ((natVal (gs.filter (fun c => c ≠ '.')) : ℚ) +
          (natVal [d1, d2] : ℚ) / 100) ∧
      brNotaNormalize (gs ++ ',' :: [d1, d2]) =
        some ((natVal (gs.filter (fun c => c ≠ '.')) : ℚ) +
          (natVal [d1, d2] : ℚ) / 100)) ∧
    (∀ gs d1 d2, gs.all (fun c => c.isDigit || c = ',') = true →
      d1.isDigit = true → d2.isDigit = true →
      genericNormalize (gs ++ '.' :: [d1, d2]) =
        some ((natVal (gs.filter (fun c => c ≠ ',')) : ℚ) +
          (natVal [d1, d2] : ℚ) / 100)) := by
  constructor
  · intro gs d1 d2 hgs h1 h2
    have hnc : ',' ∉ [d1, d2] := by
      simp only [List.mem_cons, List.not_mem_nil, or_false, not_or]
      exact ⟨Ne.symm (digit_ne d1 ',' (by decide) h1),
             Ne.symm (digit_ne d2 ',' (by decide) h2)⟩
    have hnd : '.' ∉ ',' :: [d1, d2] := by
      simp only [List.mem_cons, List.not_mem_nil, or_false, not_or]
      exact ⟨by decide, Ne.symm (digit_ne d1 '.' (by decide) h1),
             Ne.symm (digit_ne d2 '.' (by decide) h2)⟩
    have hlt : rfind '.' (gs ++ ',' :: [d1, d2]) < rfind ',' (gs ++ ',' :: [d1, d2]) := by
      rw [rfind_append_cons ',' gs [d1, d2] hnc,
          rfind_append_not_mem '.' gs (',' :: [d1, d2]) hnd]
      exact rfind_lt_length '.' gs
    refine ⟨?_, brazilToken_value gs d1 d2 hgs h1 h2⟩
    unfold genericNormalize
    rw [if_pos hlt]
    exact brazilToken_value gs d1 d2 hgs h1 h2
  · intro gs d1 d2 hgs h1 h2
    have hnd : '.' ∉ [d1, d2] := by
      simp only [List.mem_cons, List.not_mem_nil, or_false, not_or]
      exact ⟨Ne.symm (digit_ne d1 '.' (by decide) h1),
             Ne.symm (digit_ne d2 '.' (by decide) h2)⟩
    have hnc : ',' ∉ '.' :: [d1, d2] := by
      simp only [List.mem_cons, List.not_mem_nil, or_false, not_or]
      exact ⟨by decide, Ne.symm (digit_ne d1 ',' (by decide) h1),
             Ne.symm (digit_ne d2 ',' (by decide) h2)⟩
    have hge : ¬(rfind '.' (gs ++ '.' :: [d1, d2]) < rfind ',' (gs ++ '.' :: [d1, d2])) := by
      rw [rfind_append_cons '.' gs [d1, d2] hnd,
          rfind_append_not_mem ',' gs ('.' :: [d1, d2]) hnc]
      have := rfind_lt_length ',' gs
      omega
    unfold genericNormalize
    rw [if_neg hge]
    exact usToken_value gs d1 d2 hgs h1 h2

/-- Witness for C4's amended claim: `1.234,56` and `1,234.56` both
normalize to 1234.56 in the generic strategy. -/
theorem c4_normalizer_amended_witness :
    genericNormalize ("1.234".toList ++ ',' :: ['5', '6']) = some (30864/25) ∧
    genericNormalize ("1,234".toList ++ '.' :: ['5', '6']) = some (30864/25) := by
  constructor
  · rw [(c4_normalizer_amended.1 ("1.234".toList) '5' '6' (by decide) (by decide) (by decide)).1]
    decide
  · rw [c4_normalizer_amended.2 ("1,234".toList) '5' '6' (by decide) (by decide) (by decide)]
    decide

/-! ### C5 -/

/-- C9: whenever the IBKR CSV row processor emits an operation, its side is
buy exactly when the parsed Quantity is strictly positive and sell
otherwise, and the emitted quantity, total and per-row fee are the
absolute values of the parsed Quantity, Proceeds and Comm/Fee fields. -/
theorem c9_ibkr_csv_row (row : List (List Char × List Char)) (q pr f : ℚ)
    (op : Operation) (fee : ℚ)
    (hq : parseFloat? (dropCommas (rowGetD row ("Quantity".toList) ("0".toList))) = some q)
    (hpr : parseFloat? (dropCommas (rowGet2 row ("Proceeds".toList) ("Amount".toList) ("0".toList))) = some pr)
    (hf : parseFloat? (dropCommas (rowGet2 row ("Comm/Fee".toList) ("Commission".toList) ("0".toList))) = some f)
    (hout : ibkrProcessRow row = RowOutcome.emitted op fee) :
    op.type = (if 0 < q then OperationType.buy else OperationType.sell) ∧
    op.quantity = |q| ∧ op.total = |pr| ∧ fee = |f| := by
  unfold ibkrProcessRow at hout
  by_cases hsym : (stripStr (rowGetD row ("Symbol".toList) [])).isEmpty = true
  · rw [if_pos hsym] at hout
    exact (RowOutcome.noConfusion hout)
  · rw [if_neg hsym] at hout
    simp only [hq] at hout
    rcases hp : parseFloat? (dropCommas (rowGet2 row ("T. Price".toList) ("Price".toList) ("0".toList))) with _ | p
    · simp only [hp] at hout
      exact (RowOutcome.noConfusion hout)
    · simp only [hp, hpr, hf] at hout
      by_cases hg : 0 < |q| ∧ 0 ≤ p
      · rw [if_pos hg] at hout
        injection hout with h1 h2
        subst h1
        subst h2
        exact ⟨rfl, rfl, rfl, rfl⟩
      · rw [if_neg hg] at hout
        exact (RowOutcome.noConfusion hout)

def c9Row : List (List Char × List Char) :=
  [("Symbol".toList, "AAPL".toList), ("Date/Time".toList, "2024-01-15".toList),
   ("Quantity".toList, "100".toList), ("T. Price".toList, "185.50".toList),
   ("Proceeds".toList, "18550.00".toList), ("Comm/Fee".toList, "-1.00".toList)]

def c9Op : Operation :=
  { ticker := "AAPL".toList, type := OperationType.buy,
    asset_type := AssetType.stock_us, quantity := 100, price := 371/2,
    total := 18550, currency := "USD".toList, trade_date := none }

/-- Witness for C9 on a concrete buy row. -/
theorem c9_ibkr_csv_row_witness :
    ibkrProcessRow c9Row = RowOutcome.emitted c9Op 1 ∧
    c9Op.type = (if 0 < (100 : ℚ) then OperationType.buy else OperationType.sell) ∧
    c9Op.quantity = |(100 : ℚ)| ∧ c9Op.total = |(18550 : ℚ)| ∧ (1 : ℚ) = |(-1 : ℚ)| :=
  ⟨by decide,
    c9_ibkr_csv_row c9Row 100 18550 (-1) c9Op 1 (by decide) (by decide) (by decide) (by decide)⟩

/-! ### C6 -/

/-- C6: an open fault whose message signals password protection or
encryption (the signal pdfplumber raises for an encrypted document opened
with a missing or wrong passphrase) makes the Brazilian-note, Inter Global
and Avenue adapters return exactly the password response: `success =
false`, one password-required warning, no operations, and nothing else of
the pipeline run. -/
theorem c6_password_result (m : List Char) (d : Bool) (h : pwHit m = true) :
    brNotaParse (PdfOutcome.openErr m) d =
      { success := false, warnings := [brPasswordMsg] } ∧
    interParse (PdfOutcome.openErr m) d =
      { success := false, warnings := [interPasswordMsg] } ∧
    avenueParse (PdfOutcome.openErr m) d =
      { success := false, warnings := [avenuePasswordMsg] } ∧
    (brNotaParse (PdfOutcome.openErr m) d).operations = [] ∧
    containsSub ("password".toList) (lowerStr brPasswordMsg) = true ∧
    containsSub ("password".toList) (lowerStr interPasswordMsg) = true ∧
    containsSub ("password".toList) (lowerStr avenuePasswordMsg) = true := by
  refine ⟨?_, ?_, ?_, ?_, by decide, by decide, by decide⟩ <;>
    simp [brNotaParse, interParse, avenueParse, h]

/-- Witness for C6 at the concrete message `"PDF is encrypted"`. -/
theorem c6_password_result_witness :
    pwHit ("PDF is encrypted".toList) = true ∧
    brNotaParse (PdfOutcome.openErr ("PDF is encrypted".toList)) false =
      { success := false, warnings := [brPasswordMsg] } :=
  ⟨by decide, (c6_password_result ("PDF is encrypted".toList) false (by decide)).1⟩

/-! ### C7 -/

/-- C7: a `FeeBreakdown` produced by the Brazilian fee extractor always has
`total` equal to the sum of its named category fields (custody and other
are never populated), and the IBKR PDF fee extraction likewise recomputes
`total` as the single populated category (brokerage); no "total" label is
read for the total. -/
theorem c7_fee_total_sum :
    (∀ t : List Char,
      (extract_fees t).total =
        (extract_fees t).brokerage + (extract_fees t).settlement +
          (extract_fees t).emoluments + (extract_fees t).custody +
          (extract_fees t).iss + (extract_fees t).irrf + (extract_fees t).other ∧
      (extract_fees t).custody = 0 ∧ (extract_fees t).other = 0) ∧
    (∀ (t : List Char) (f : Fees), ibkrPdfExtractFees t = some f →
      f.total = f.brokerage ∧ f.settlement = 0 ∧ f.emoluments = 0 ∧
        f.custody = 0 ∧ f.iss = 0 ∧ f.irrf = 0 ∧ f.other = 0) := by
  constructor
  · intro t
    exact ⟨rfl, rfl, rfl⟩
  · intro t f h
    unfold ibkrPdfExtractFees at h
    rcases hs : searchTotalCommission (lowerStr t) with _ | numtok
    · simp only [hs, Option.some.injEq] at h
      subst h
      exact ⟨rfl, rfl, rfl, rfl, rfl, rfl, rfl⟩
    · simp only [hs] at h
      rcases hp : parseFloat? (dropCommas numtok) with _ | v
      · simp [hp] at h
      · simp only [hp, Option.some.injEq] at h
        subst h
        exact ⟨rfl, rfl, rfl, rfl, rfl, rfl, rfl⟩

def c7Text : List Char := "Total Commission: 1.50".toList

def c7Fees : Fees := { brokerage := 3/2, total := 3/2 }

/-- Witness for C7 on a concrete IBKR statement text. -/
theorem c7_fee_total_sum_witness :
    ibkrPdfExtractFees c7Text = some c7Fees ∧ c7Fees.total = c7Fees.brokerage :=
  ⟨by decide, (c7_fee_total_sum.2 c7Text c7Fees (by decide)).1⟩

/-! ### C8 -/

def c8RowText : List Char := "TOTAL AAPL 10 20.5".toList

def c8Table : Table := [[some c8RowText], [some ("zz".toList)]]

/-- C8 counterexample: in the row `"TOTAL AAPL 10 20.5"` the first
grammar-matching token (`TOTAL`, by the US pattern) is blacklisted, a later
token (`AAPL`) matches the grammar and is not blacklisted, yet scanning
does not continue: no ticker is resolved and the row yields no operation. -/
theorem c8_blacklist_counterexample :
    extract_operations_from_tables [c8Table] = Except.ok [] ∧
    genericFindTicker c8RowText = none ∧
    brTickerSearch c8RowText = none ∧
    usTickerSearch c8RowText = some ("TOTAL".toList) ∧
    tickerBlacklist.contains ("TOTAL".toList) = true ∧
    usTickerSearch (c8RowText.drop 6) = some ("AAPL".toList) ∧
    tickerBlacklist.contains ("AAPL".toList) = false := by
  refine ⟨rfl, by decide, by decide, by decide, by decide, by decide, by decide⟩

/-- C8 amended: a blacklisted first match causes the matching pattern to be
abandoned for the row, not rescanned: the generic resolver accepts the
Brazilian pattern's first match when it is not blacklisted, and when the
Brazilian pattern has no match and the US pattern's first match is
blacklisted, the row resolves no ticker at all — later non-blacklisted
tokens of the same pattern are never considered (the IBKR PDF parser
likewise skips such a row). -/
theorem c8_blacklist_amended (s : List Char) :
    (∀ m, brTickerSearch s = some m → tickerBlacklist.contains m = false →
      genericFindTicker s = some m) ∧
    (brTickerSearch s = none →
      ∀ m2, usTickerSearch s = some m2 → tickerBlacklist.contains m2 = true →
        genericFindTicker s = none) := by
  constructor
  · intro m h1 h2
    have h2' : m ∉ tickerBlacklist := by simpa using h2
    unfold genericFindTicker
    simp [h1, h2']
  · intro h1 m2 h2 h3
    have h3' : m2 ∈ tickerBlacklist := by simpa using h3
    unfold genericFindTicker
    simp [h1, h2, h3']

/-- Witness for C8's amended claim at the counterexample row. -/
theorem c8_blacklist_amended_witness :
    genericFindTicker c8RowText = none :=
  (c8_blacklist_amended c8RowText).2 (by decide) ("TOTAL".toList) (by decide) (by decide)

/-! ### C10 -/

/-- C10: on every generic parse in which the table extraction completes,
the response carries `raw_text` (the first 1000 characters of the
extracted text) exactly when zero operations were extracted — no debug
flag exists in this adapter — and `raw_text` is `none` exactly when at
least one operation was extracted. -/
theorem c10_raw_text_iff (doc : PdfDoc) (ops : List Operation)
    (h : extract_operations_from_tables (allTables doc) = Except.ok ops) :
    ((genericParse (PdfOutcome.ok doc)).raw_text = some ((fullText doc).take 1000) ↔
      (genericParse (PdfOutcome.ok doc)).operations = []) ∧
    ((genericParse (PdfOutcome.ok doc)).raw_text = none ↔
      (genericParse (PdfOutcome.ok doc)).operations ≠ []) := by
  cases ops with
  | nil => simp [genericParse, h]
  | cons a l => simp [genericParse, h]

/-- Witness for C10 on a one-page document with no operations. -/
theorem c10_raw_text_iff_witness :
    extract_operations_from_tables (allTables [("hi".toList, [])]) = Except.ok [] ∧
    (genericParse (PdfOutcome.ok [("hi".toList, [])])).raw_text =
      some ((fullText [("hi".toList, [])]).take 1000) :=
  ⟨rfl, ((c10_raw_text_iff [("hi".toList, [])] [] rfl).1).mpr (by decide)⟩

end Graham
